import Mathlib

/-!
Verification of the croutons-merge-service core logic.

The development shallowly embeds two subsystems of the repository:

* the versioned markdown document store with activation gating
  (`src/routes/render.js`, `src/routes/admin.js`, served by `md-server.js`,
  table `markdown_versions` from `migrations/014_add_markdown_versions.sql`);
* the tiered cache and the entity-matching merge
  (`src/cache/cacheService.js`, `src/cache/redisCache.js`,
  `src/cache/sqliteCache.js`, `src/services/bkkMassageMerge.js`).

Database tables are lists of row structures; SQL statements become list
operations applied in program order.  Timestamps (`NOW()`, `Date.now()`)
are threaded as explicit `Nat` parameters; ISO timestamp strings produced
by `new Date().toISOString()` are threaded as explicit `String` parameters.
JavaScript truthiness is modelled field by field: a missing/null value is
`Option.none`, an empty string and the number 0 are falsy, and - as in
JavaScript - an empty array is truthy.
-/

namespace Croutons

/-- A row of the `markdown_versions` table.  `id` models the UUID primary key
as a `Nat` issued by an increasing counter; `sourceUrl` models the nullable
`source_url` column read by `endorsement.js`/`rebuild.js` (the migration shown
in the repo predates it; the INSERT in `render.js` never sets it, leaving SQL
NULL = `none`).  Timestamp columns are `Nat` seconds. -/
structure Row where
  id : Nat
  domain : String
  path : String
  sourceUrl : Option String
  content : String
  contentHash : String
  isActive : Bool
  generatedAt : Nat
  createdAt : Nat
  updatedAt : Nat
deriving Repr, DecidableEq

/-- A row of the `verified_domains` table (only the columns the embedded
routes read).  `verifiedAt = none` models SQL NULL. -/
structure VerifiedDomain where
  domain : String
  verifiedAt : Option Nat
deriving Repr, DecidableEq

/-- The `markdown_versions` table plus the id counter that models
`gen_random_uuid()` freshness. -/
structure DB where
  rows : List Row
  nextId : Nat
deriving Repr, DecidableEq

/-- `WHERE domain = $1 AND path = $2`. -/
def keyMatch (r : Row) (d p : String) : Bool :=
  r.domain == d && r.path == p

/-- `WHERE domain = $1 AND path = $2 AND content_hash = $3`. -/
def tripleMatch (r : Row) (d p h : String) : Bool :=
  keyMatch r d p && r.contentHash == h

/-- Outcomes of the admin activation/deactivation routes, abstracting the
HTTP responses (400 / 404 / idempotent 200 / mutating 200). -/
inductive AdminOutcome where
  | badRequest
  | notFound
  | alreadyActive
  | activated
  | alreadyInactive
  | deactivated
deriving Repr, DecidableEq

/-- `activateMarkdown` from `src/routes/admin.js` (POST /v1/admin/activate):
validate parameters, look the target version up, succeed idempotently if it
is already active, otherwise atomically deactivate every version of the
(domain, path) key and activate the target row. -/
def activateMarkdown (db : DB) (domain path content_hash : String) (now : Nat) :
    AdminOutcome × DB :=
  if domain = "" ∨ path = "" ∨ content_hash = "" then
    (.badRequest, db)
  else
    match db.rows.filter (fun r => tripleMatch r domain path content_hash) with
    | [] => (.notFound, db)
    | target :: _ =>
      if target.isActive then
        (.alreadyActive, db)
      else
        (.activated,
          { db with
            rows :=
              (db.rows.map (fun r =>
                if keyMatch r domain path then
                  { r with isActive := false, updatedAt := now }
                else r)).map (fun r =>
                  if tripleMatch r domain path content_hash then
                    { r with isActive := true, updatedAt := now }
                  else r) })

/-- `activateMarkdownById` from `src/routes/admin.js`
(POST /v1/admin/activate-by-id): the same atomic swap keyed by the row id
(the request parameter is `none` when `version_id` is absent/falsy). -/
def activateMarkdownById (db : DB) (version_id : Option Nat) (now : Nat) :
    AdminOutcome × DB :=
  match version_id with
  | none => (.badRequest, db)
  | some vid =>
    match db.rows.filter (fun r => r.id == vid) with
    | [] => (.notFound, db)
    | target :: _ =>
      if target.isActive then
        (.alreadyActive, db)
      else
        (.activated,
          { db with
            rows :=
              (db.rows.map (fun r =>
                if keyMatch r target.domain target.path then
                  { r with isActive := false, updatedAt := now }
                else r)).map (fun r =>
                  if r.id == vid then
                    { r with isActive := true, updatedAt := now }
                  else r) })

/-- `deactivateMarkdown` from `src/routes/admin.js`
(POST /v1/admin/deactivate): set `is_active = false` on exactly the target
row, idempotently. -/
def deactivateMarkdown (db : DB) (domain path content_hash : String) (now : Nat) :
    AdminOutcome × DB :=
  if domain = "" ∨ path = "" ∨ content_hash = "" then
    (.badRequest, db)
  else
    match db.rows.filter (fun r => tripleMatch r domain path content_hash) with
    | [] => (.notFound, db)
    | target :: _ =>
      if !target.isActive then
        (.alreadyInactive, db)
      else
        (.deactivated,
          { db with
            rows :=
              db.rows.map (fun r =>
                if tripleMatch r domain path content_hash then
                  { r with isActive := false, updatedAt := now }
                else r) })

/-- One heading of the extracted content consumed by the renderer. -/
structure Heading where
  level : Nat
  text : String
deriving Repr, DecidableEq

/-- One table of the extracted content (`table.html` is the only field the
renderer reads). -/
structure TableData where
  html : String
deriving Repr, DecidableEq

/-- The `extracted_content` object consumed by `renderMarkdown`. -/
structure ExtractedContent where
  title : String
  headings : List Heading
  body : String
  lists : List String
  tables : List TableData
deriving Repr, DecidableEq

/-- `path.replace(/^\/+|\/+$/g, "")`: drop leading and trailing slashes. -/
def trimSlashes (s : String) : String :=
  String.mk (((s.toList.dropWhile (· = '/')).reverse.dropWhile (· = '/')).reverse)

/-- Split at the first `"://"`, returning the scheme part and the rest.
(The corresponding `String.splitOn` uses well-founded recursion, which the
kernel cannot evaluate, so the split is implemented structurally.) -/
def splitScheme : List Char → Option (List Char × List Char)
  | [] => none
  | ':' :: '/' :: '/' :: rest => some ([], rest)
  | c :: rest => (splitScheme rest).map fun pr => (c :: pr.1, pr.2)

/-- Split a character list on a separator character. -/
def splitChar (sep : Char) : List Char → List (List Char)
  | [] => [[]]
  | c :: cs =>
    match splitChar sep cs with
    | [] => if c = sep then [[], []] else [[c]]
    | h :: t => if c = sep then [] :: h :: t else (c :: h) :: t

/-- Rejoin character-list segments with `'/'`. -/
def joinSlash : List (List Char) → List Char
  | [] => []
  | [x] => x
  | x :: y :: t => x ++ '/' :: joinSlash (y :: t)

/-- `derivePath` from `src/routes/render.js`: the pathname of the source URL
with leading/trailing slashes removed, with the empty path mapped to
`"index"`.  `new URL` is modelled for absolute URLs of the shape
`scheme://host/segments...` without query or fragment; a string without a
scheme separator takes the catch branch and yields `"index"`. -/
def derivePath (sourceUrl : String) : String :=
  match splitScheme sourceUrl.toList with
  | none => "index"
  | some (_, rest) =>
    match splitChar '/' rest with
    | [] => "index"
    | _ :: pathSegs =>
      let p := trimSlashes (String.mk (joinSlash pathSegs))
      if p = "" then "index" else p

/-- `new URL(sourceUrl).hostname`, modelled like `derivePath`. -/
def deriveHost (sourceUrl : String) : String :=
  match splitScheme sourceUrl.toList with
  | none => ""
  | some (_, rest) => String.mk ((splitChar '/' rest).headD [])

/-- `title.replace(/"/g, "\\\"")`, implemented structurally
(`String.replace` uses well-founded recursion). -/
def escapeQuotes : List Char → List Char
  | [] => []
  | c :: cs => if c = '"' then '\\' :: '"' :: escapeQuotes cs else c :: escapeQuotes cs

/-- `renderMarkdown` from `src/routes/render.js`: frontmatter followed by the
deterministically rendered sections.  `generatedAt` stands for the
`new Date().toISOString()` string taken when the route runs. -/
def renderMarkdown (ec : ExtractedContent) (sourceUrl contentHash generatedAt : String) :
    String :=
  let domain := deriveHost sourceUrl
  let frontmatter := String.intercalate "\n"
    [ "---",
      "title: \"" ++ String.mk (escapeQuotes ec.title.toList) ++ "\"",
      "source_url: \"" ++ sourceUrl ++ "\"",
      "source_domain: \"" ++ domain ++ "\"",
      "generated_by: \"croutons.ai\"",
      "generated_at: \"" ++ generatedAt ++ "\"",
      "content_hash: \"" ++ contentHash ++ "\"",
      "---",
      "" ]
  let md0 := if ec.title = "" then "" else "# " ++ ec.title ++ "\n\n"
  let md1 := md0 ++ String.join (ec.headings.map fun h =>
    String.mk (List.replicate h.level '#') ++ " " ++ h.text ++ "\n\n")
  let md2 := md1 ++ (if ec.body = "" then "" else ec.body ++ "\n\n")
  let md3 := md2 ++ (if ec.lists = [] then ""
    else String.join (ec.lists.map fun item => "- " ++ item ++ "\n") ++ "\n")
  let md4 := md3 ++ String.join (ec.tables.map fun t => t.html ++ "\n\n")
  frontmatter ++ md4

/-- The body of a POST /v1/render request.  `extracted_content = none` models
an absent field (JavaScript `undefined`). -/
structure RenderRequest where
  domain : String
  source_url : String
  content_hash : String
  extracted_content : Option ExtractedContent
deriving Repr, DecidableEq

/-- Outcome of the render route: 400, the (dead, see `C3`) duplicate
response, or success carrying the reported `is_active` flag. -/
inductive RenderOutcome where
  | badRequest
  | duplicate
  | ok (isActive : Bool)
deriving Repr, DecidableEq

/-- The `INSERT INTO markdown_versions ... ON CONFLICT (domain, path,
content_hash) DO UPDATE SET content = EXCLUDED.content, updated_at = NOW()
RETURNING id` statement of `render.js`: on conflict the existing row's
content and update time are overwritten and its id returned; otherwise a
fresh inactive row (with NULL `source_url`) is appended under a fresh id. -/
def renderInsert (db : DB) (d p h content : String) (now : Nat) : DB × Nat :=
  if db.rows.any (fun r => tripleMatch r d p h) then
    ({ db with rows := db.rows.map (fun r =>
        if tripleMatch r d p h then { r with content := content, updatedAt := now }
        else r) },
     ((db.rows.find? fun r => tripleMatch r d p h).map Row.id).getD 0)
  else
    ({ rows := db.rows ++ [{ id := db.nextId, domain := d, path := p,
                             sourceUrl := none, content := content, contentHash := h,
                             isActive := false, generatedAt := now, createdAt := now,
                             updatedAt := now }],
       nextId := db.nextId + 1 },
     db.nextId)

/-- The auto-activation transaction of `render.js`: deactivate every other
version of the (domain, path) key, then activate the row with id `vid`. -/
def autoActivate (db : DB) (d p : String) (vid : Nat) (now : Nat) : DB :=
  { db with rows :=
      (db.rows.map (fun r =>
        if keyMatch r d p && !(r.id == vid) then
          { r with isActive := false, updatedAt := now }
        else r)).map (fun r =>
          if r.id == vid then { r with isActive := true, updatedAt := now }
          else r) }

/-- `renderMarkdownRoute` from `src/routes/render.js` (POST /v1/render):
duplicate check keyed on (domain, source_url, content_hash); render; insert
with `ON CONFLICT (domain, path, content_hash) DO UPDATE SET content,
updated_at`; auto-activation when the domain is verified.  The stored
`source_url` of rows this route inserts is SQL NULL, so the duplicate check
compares the request string with NULL.  The event emitted to the outbox
table and the HTTP response body are not modelled; `now`/`nowIso` stand for
the route's wall-clock reads. -/
def renderMarkdownRoute (db : DB) (vds : List VerifiedDomain)
    (req : RenderRequest) (now : Nat) (nowIso : String) : RenderOutcome × DB :=
  match req.extracted_content with
  | none => (.badRequest, db)
  | some ec =>
    if req.domain = "" ∨ req.source_url = "" ∨ req.content_hash = "" then
      (.badRequest, db)
    else if db.rows.any (fun r =>
        r.domain == req.domain && r.sourceUrl == some req.source_url &&
        r.contentHash == req.content_hash) then
      (.duplicate, db)
    else if vds.any (fun v => v.domain == req.domain && v.verifiedAt.isSome) then
      (.ok true,
        autoActivate
          (renderInsert db req.domain (derivePath req.source_url) req.content_hash
            (renderMarkdown ec req.source_url req.content_hash nowIso) now).1
          req.domain (derivePath req.source_url)
          (renderInsert db req.domain (derivePath req.source_url) req.content_hash
            (renderMarkdown ec req.source_url req.content_hash nowIso) now).2
          now)
    else
      (.ok false,
        (renderInsert db req.domain (derivePath req.source_url) req.content_hash
          (renderMarkdown ec req.source_url req.content_hash nowIso) now).1)

/-- Outcomes of the markdown serving GET handler of `md-server.js`
(the non-admin wildcard route), abstracting the HTTP responses
404 / 403 / 404 / 500 "Content too large" / 200. -/
inductive ServeOutcome where
  | domainNotFound
  | forbidden
  | markdownNotFound
  | contentTooLarge
  | served (content : String)
deriving Repr, DecidableEq

/-- The markdown serving GET handler of `md-server.js` for a normalized
(domain, path): Rule A checks the `verified_domains` row (404 when absent,
403 when `verified_at` is NULL), Rule B looks the active version up (404
when none), Rule C returns the content - unless it exceeds 2 MB, in which
case a 500 "Content too large" is sent instead.  The database pool is
assumed available and the participation event is not modelled. -/
def serveMarkdown (vds : List VerifiedDomain) (db : DB) (domain path : String) :
    ServeOutcome :=
  match vds.find? (fun v => v.domain == domain) with
  | none => .domainNotFound
  | some v =>
    if v.verifiedAt.isNone then .forbidden
    else
      match db.rows.filter (fun r => keyMatch r domain path && r.isActive) with
      | [] => .markdownNotFound
      | row :: _ =>
        if row.content.length > 2 * 1024 * 1024 then .contentTooLarge
        else .served row.content

/-- One sequential operation on the markdown store, as in claim C1. -/
inductive Op where
  | render (req : RenderRequest) (now : Nat) (nowIso : String)
  | activate (domain path content_hash : String) (now : Nat)
  | activateById (version_id : Option Nat) (now : Nat)
  | deactivate (domain path content_hash : String) (now : Nat)
deriving Repr

/-- Apply one operation to the store (the `verified_domains` table is not
mutated by any of the four operations). -/
def applyOp (vds : List VerifiedDomain) (db : DB) : Op → DB
  | .render req now nowIso => (renderMarkdownRoute db vds req now nowIso).2
  | .activate d p h now => (activateMarkdown db d p h now).2
  | .activateById v now => (activateMarkdownById db v now).2
  | .deactivate d p h now => (deactivateMarkdown db d p h now).2

/-- The empty `markdown_versions` table created by the migration. -/
def initDB : DB := { rows := [], nextId := 0 }

/-- Run a sequence of operations from the initial empty store. -/
def runOps (vds : List VerifiedDomain) (ops : List Op) : DB :=
  ops.foldl (applyOp vds) initDB

/-- Number of active rows stored for a (domain, path) key. -/
def activeCount (rows : List Row) (d p : String) : Nat :=
  rows.countP fun r => keyMatch r d p && r.isActive

/-- The `UNIQUE(domain, path, content_hash)` constraint of the migration. -/
def UniqueTriples (rows : List Row) : Prop :=
  rows.Pairwise fun a b =>
    ¬(a.domain = b.domain ∧ a.path = b.path ∧ a.contentHash = b.contentHash)

/-- Primary-key uniqueness of the ids. -/
def UniqueIds (rows : List Row) : Prop :=
  rows.Pairwise fun a b => a.id ≠ b.id

/-- Every stored id is below the fresh-id counter. -/
def IdsBelow (rows : List Row) (n : Nat) : Prop :=
  ∀ r ∈ rows, r.id < n

/-- Well-formedness of the store: the table constraints plus id freshness. -/
def WF (db : DB) : Prop :=
  UniqueTriples db.rows ∧ UniqueIds db.rows ∧ IdsBelow db.rows db.nextId

/-- The single-active-version invariant of claim C1. -/
def ActiveInv (db : DB) : Prop :=
  ∀ d p, activeCount db.rows d p ≤ 1

/-- Combined inductive invariant maintained by every operation. -/
def Inv (db : DB) : Prop := WF db ∧ ActiveInv db

/-- The immutable frame of a stored version: every column except
`content`, `isActive` and `updatedAt`. -/
def frameOf (r : Row) : Nat × String × String × String × Option String × Nat × Nat :=
  (r.id, r.domain, r.path, r.contentHash, r.sourceUrl, r.generatedAt, r.createdAt)

/-- Update functions that keep a row's id, domain, path and content hash. -/
def KeysPreserved (f : Row → Row) : Prop :=
  ∀ r, (f r).id = r.id ∧ (f r).domain = r.domain ∧ (f r).path = r.path ∧
    (f r).contentHash = r.contentHash

/-! ## Tiered cache (`src/cache`) -/

/-- A shop record as it flows through the cache and merge APIs (a JSON
object).  `none` models a missing/null field; note that in JavaScript an
empty array is truthy while `0` and `""` are falsy. -/
structure Shop where
  id : Option String
  name : String
  address : Option String
  district : Option String
  rating : Option ℚ
  review_count : Option Nat
  prettiest_women : Option (List String)
  pricing : Option (List String)
  line_usernames : Option (List String)
  websites : Option (List String)
  verified : Bool
  safety_signals : Option (List String)
  data_sources : Option (List String)
  last_updated : Option Nat
deriving Repr, DecidableEq

/-- JavaScript `x || fallback` for a nullable string: `""` is falsy. -/
def truthyS : Option String → Option String
  | some s => if s = "" then none else some s
  | none => none

/-- JavaScript truthiness for a nullable rational: `0` is falsy. -/
def truthyQ : Option ℚ → Option ℚ
  | some q => if q = 0 then none else some q
  | none => none

/-- JavaScript truthiness for a nullable natural: `0` is falsy. -/
def truthyN : Option Nat → Option Nat
  | some n => if n = 0 then none else some n
  | none => none

/-- `generateId` of `sqliteCache.js`/`bkkMassageMerge.js`: the first 16 hex
digits of the SHA-256 of the name, modelled as an opaque injective tag (no
claim inspects its value). -/
def generateId (name : String) : String := "sha256:" ++ name

/-- A row of the sqlite `shops` table.  The TEXT columns holding
`JSON.stringify`ed lists are modelled by the lists themselves (JSON
round-trips). -/
structure SqliteShopRow where
  id : String
  name : String
  address : Option String
  district : Option String
  rating : Option ℚ
  review_count : Option Nat
  prettiest_women : List String
  pricing : List String
  line_usernames : List String
  websites : List String
  verified : Bool
  safety_signals : List String
  data_sources : List String
  last_updated : Nat
  created_at : Nat
deriving Repr, DecidableEq

/-- The values `saveShops` binds for one shop (`shop.rating || null` etc.;
both timestamps are freshly taken `new Date().toISOString()` values). -/
def shopToSqliteRow (shop : Shop) (now : Nat) : SqliteShopRow :=
  { id := (truthyS shop.id).getD (generateId shop.name),
    name := shop.name,
    address := truthyS shop.address,
    district := truthyS shop.district,
    rating := truthyQ shop.rating,
    review_count := truthyN shop.review_count,
    prettiest_women := shop.prettiest_women.getD [],
    pricing := shop.pricing.getD [],
    line_usernames := shop.line_usernames.getD [],
    websites := shop.websites.getD [],
    verified := shop.verified,
    safety_signals := shop.safety_signals.getD [],
    data_sources := shop.data_sources.getD [],
    last_updated := now,
    created_at := now }

/-- `INSERT OR REPLACE` keyed by the `id` primary key, modelled as an
in-place replace (physical row order is immaterial: every read sorts). -/
def insertOrReplace (rows : List SqliteShopRow) (row : SqliteShopRow) :
    List SqliteShopRow :=
  if rows.any (fun r => r.id == row.id) then
    rows.map fun r => if r.id == row.id then row else r
  else rows ++ [row]

/-- `SQLiteCache.saveShops`: one transaction inserting/replacing each shop. -/
def sqliteSaveShops (rows : List SqliteShopRow) (shops : List Shop) (now : Nat) :
    List SqliteShopRow :=
  shops.foldl (fun acc s => insertOrReplace acc (shopToSqliteRow s now)) rows

/-- Rating key used by `ORDER BY rating DESC` and the redis comparator
`(b.rating || 0) - (a.rating || 0)`; SQL NULL is modelled as 0 (the order
among ties/NULLs is unspecified in both the SQL and the JS engine and no
claim depends on it). -/
def ratingKey (r : Option ℚ) : ℚ := r.getD 0

/-- Insert into a descending-by-rating sorted list. -/
def insertRatingDesc (x : SqliteShopRow) : List SqliteShopRow → List SqliteShopRow
  | [] => [x]
  | y :: ys =>
    if ratingKey y.rating < ratingKey x.rating then x :: y :: ys
    else y :: insertRatingDesc x ys

/-- `ORDER BY rating DESC` as an insertion sort. -/
def sortByRatingDesc (rows : List SqliteShopRow) : List SqliteShopRow :=
  rows.foldr insertRatingDesc []

/-- The shop object `SQLiteCache.getShops` builds from a row
(`{...row, lists: JSON.parse(...), verified: Boolean(row.verified)}`). -/
def sqliteRowToShop (r : SqliteShopRow) : Shop :=
  { id := some r.id,
    name := r.name,
    address := r.address,
    district := r.district,
    rating := r.rating,
    review_count := r.review_count,
    prettiest_women := some r.prettiest_women,
    pricing := some r.pricing,
    line_usernames := some r.line_usernames,
    websites := some r.websites,
    verified := r.verified,
    safety_signals := some r.safety_signals,
    data_sources := some r.data_sources,
    last_updated := some r.last_updated }

/-- `SQLiteCache.getShops`: filter by district when given, order by rating
descending, deserialize. -/
def sqliteGetShops (rows : List SqliteShopRow) (district : Option String) :
    List Shop :=
  let filtered := match district with
    | some d => rows.filter fun r => r.district == some d
    | none => rows
  (sortByRatingDesc filtered).map sqliteRowToShop

/-- A redis value with its `setex` expiry instant. -/
structure RedisEntry where
  shops : List Shop
  expiresAt : Nat
deriving Repr, DecidableEq

/-- The redis keys `RedisCache` uses for shops: `bkk_massage:shops`,
`bkk_massage:shops:district:<d>`, `bkk_massage:shops:rating:sorted`,
`bkk_massage:last_updated`. -/
structure RedisState where
  shopsGlobal : Option RedisEntry
  shopsByDistrict : List (String × RedisEntry)
  shopsByRating : Option RedisEntry
  lastUpdated : Option Nat
deriving Repr, DecidableEq

/-- Look a district key up. -/
def getAssoc (l : List (String × RedisEntry)) (k : String) : Option RedisEntry :=
  (l.find? fun p => p.1 == k).map Prod.snd

/-- Set a district key. -/
def setAssoc (l : List (String × RedisEntry)) (k : String) (v : RedisEntry) :
    List (String × RedisEntry) :=
  if l.any (fun p => p.1 == k) then
    l.map fun p => if p.1 == k then (k, v) else p
  else l ++ [(k, v)]

/-- Insert into a descending-by-rating sorted shop list (redis comparator
`(b.rating || 0) - (a.rating || 0)`). -/
def insertShopRatingDesc (x : Shop) : List Shop → List Shop
  | [] => [x]
  | y :: ys =>
    if ratingKey y.rating < ratingKey x.rating then x :: y :: ys
    else y :: insertShopRatingDesc x ys

/-- The sorted copy `RedisCache.setShops` also stores. -/
def sortShopsByRatingDesc (shops : List Shop) : List Shop :=
  shops.foldr insertShopRatingDesc []

/-- `RedisCache.setShops`: write the district key when a district is given,
else the global key, plus the rating-sorted key, each with a 3600 s TTL. -/
def redisSetShops (st : RedisState) (shops : List Shop) (district : Option String)
    (now : Nat) : RedisState :=
  let e : RedisEntry := { shops := shops, expiresAt := now + 3600 }
  let st1 := match district with
    | some d => { st with shopsByDistrict := setAssoc st.shopsByDistrict d e }
    | none => { st with shopsGlobal := some e }
  { st1 with shopsByRating := some { shops := sortShopsByRatingDesc shops,
                                     expiresAt := now + 3600 } }

/-- `RedisCache.getShops`: read the district key when a district is given,
else the global key; an expired key reads as absent.  A stored empty list
is a hit (the JSON text `"[]"` is truthy). -/
def redisGetShops (st : RedisState) (district : Option String) (now : Nat) :
    Option (List Shop) :=
  let entry := match district with
    | some d => getAssoc st.shopsByDistrict d
    | none => st.shopsGlobal
  match entry with
  | some e => if now < e.expiresAt then some e.shops else none
  | none => none

/-- The two cache tiers owned by `CacheService` (`redisConfigured` models
`REDIS_URL` being set).  Tier I/O is modelled as reliable; the code logs
and swallows tier errors, which no claim exercises. -/
structure CacheState where
  redisConfigured : Bool
  redis : RedisState
  sqlite : List SqliteShopRow
deriving Repr, DecidableEq

/-- `CacheService.isRecent`: age in seconds below the freshness window
(`(Date.now() - ts)/1000 < maxAge`; a future timestamp is recent under the
truncated subtraction exactly as its negative age is in JavaScript). -/
def isRecent (ts maxAge now : Nat) : Bool := now - ts < maxAge

/-- Which tier served a `getShops` read. -/
inductive ServedFrom where
  | fast
  | durable
  | corpus
  | exhausted
deriving Repr, DecidableEq

/-- `CacheService.getShops`: redis, then sqlite (freshness-checked on the
first row's `last_updated`, warming redis on a hit), then the corpus file
(warming both), else the empty list.  `corpus` stands for the parsed
`shops_verified.ndjson` (the empty list models a missing/empty file). -/
def cacheGetShops (st : CacheState) (corpus : List Shop) (district : Option String)
    (now : Nat) : List Shop × ServedFrom × CacheState :=
  let fastHit := if st.redisConfigured then redisGetShops st.redis district now else none
  match fastHit with
  | some cached => (cached, .fast, st)
  | none =>
    let sqliteShops := sqliteGetShops st.sqlite district
    let fresh := match sqliteShops.head? with
      | some first => match first.last_updated with
        | some ts => isRecent ts 3600 now
        | none => false
      | none => false
    if fresh then
      let st1 := if st.redisConfigured then
          { st with redis := redisSetShops st.redis sqliteShops district now }
        else st
      (sqliteShops, .durable, st1)
    else if corpus ≠ [] then
      let st1 := { st with sqlite := sqliteSaveShops st.sqlite corpus now }
      let st2 := if st.redisConfigured then
          { st1 with redis := redisSetShops st1.redis corpus district now }
        else st1
      (corpus, .corpus, st2)
    else ([], .exhausted, st)

/-- `CacheService.updateShops`: write sqlite, and when redis is configured
write the global shops key (no district key!) and the last-updated marker. -/
def cacheUpdateShops (st : CacheState) (shops : List Shop) (now : Nat) : CacheState :=
  let st1 := { st with sqlite := sqliteSaveShops st.sqlite shops now }
  if st.redisConfigured then
    { st1 with redis := { redisSetShops st1.redis shops none now with
                          lastUpdated := some now } }
  else st1

/-! ## Entity matching and merge (`src/services/bkkMassageMerge.js`) -/

/-- A live Google-Maps record as consumed by the merge service (note the
field `prettiest_women_mentions`, distinct from the corpus field name). -/
structure LiveShop where
  id : Option String
  name : String
  address : Option String
  rating : Option ℚ
  review_count : Option Nat
  prettiest_women_mentions : Option (List String)
  pricing : Option (List String)
  line_usernames : Option (List String)
  websites : Option (List String)
deriving Repr, DecidableEq

/-- A corpus reference record as consumed by the merge service. -/
structure CorpusShop where
  id : Option String
  name : String
  address : Option String
  district : Option String
  rating : Option ℚ
  review_count : Option Nat
  prettiest_women : Option (List String)
  pricing : Option (List String)
  line_usernames : Option (List String)
  websites : Option (List String)
  verified : Bool
  safety_signals : Option (List String)
  last_verified : Option String
deriving Repr, DecidableEq

/-- A district profile (`profile` is an opaque blob, modelled as a string). -/
structure DistrictProfile where
  name : String
  profile : Option String
  last_updated : Option Nat
deriving Repr, DecidableEq

/-- A pricing reference entry. -/
structure PricingRef where
  district : Option String
  massage_type : String
  price_low : ℚ
  price_high : ℚ
  price_typical : ℚ
  currency : String
deriving Repr, DecidableEq

/-- `String.prototype.includes`. -/
def includesStr (hay needle : String) : Bool :=
  decide (needle.toList <:+: hay.toList)

/-- `s.substring(0, n)`. -/
def strTake (s : String) (n : Nat) : String := String.mk (s.toList.take n)

/-- `s.toLowerCase()`, implemented structurally over the character list
(`String.toLower` goes through the well-founded `String.map` loop).  Both
lower only ASCII letters on the inputs the claims exercise. -/
def jsToLower (s : String) : String := String.mk (s.toList.map Char.toLower)

/-- `name.toLowerCase().replace(/[^a-z0-9]/g, "")`. -/
def normalizeName (s : String) : String :=
  String.mk ((jsToLower s).toList.filter fun c =>
    decide (('a' ≤ c ∧ c ≤ 'z') ∨ ('0' ≤ c ∧ c ≤ '9')))

/-- `isSimilarName`: either normalized name contains the first 5 characters
of the other. -/
def isSimilarName (name1 name2 : String) : Bool :=
  if name1 = "" ∨ name2 = "" then false
  else
    let n1 := normalizeName name1
    let n2 := normalizeName name2
    includesStr n1 (strTake n2 5) || includesStr n2 (strTake n1 5)

/-- `isSimilarAddress`: either lowercased address contains the first 10
characters of the other. -/
def isSimilarAddress (addr1 addr2 : String) : Bool :=
  if addr1 = "" ∨ addr2 = "" then false
  else
    includesStr (jsToLower addr1) (strTake (jsToLower addr2) 10) ||
      includesStr (jsToLower addr2) (strTake (jsToLower addr1) 10)

/-- The fixed district list of `extractDistrict`. -/
def districts : List String :=
  ["Asok", "Nana", "Phrom Phong", "Thonglor", "Ekkamai",
   "Silom", "Ari", "Victory Monument", "Ratchada", "Old City"]

/-- `extractDistrict`: first district whose name occurs (case-insensitively)
in the address. -/
def extractDistrict (address : Option String) : Option String :=
  match truthyS address with
  | none => none
  | some a => districts.find? fun d => includesStr (jsToLower a) (jsToLower d)

/-- `findMatchingShop`: exact case-insensitive name match, then fuzzy name
match, then address match; each rule skips records with a falsy (empty)
name/address, and the whole search is skipped when the live name/address is
falsy. -/
def findMatchingShop (live : LiveShop) (corpusShops : List CorpusShop) :
    Option CorpusShop :=
  if corpusShops.isEmpty then none
  else
    match corpusShops.find? (fun s =>
        s.name != "" && live.name != "" && (jsToLower s.name == jsToLower live.name)) with
    | some m => some m
    | none =>
      match corpusShops.find? (fun s =>
          s.name != "" && live.name != "" && isSimilarName s.name live.name) with
      | some m => some m
      | none =>
        match truthyS live.address with
        | none => none
        | some addr =>
          corpusShops.find? fun s =>
            match s.address with
            | some a => a != "" && isSimilarAddress a addr
            | none => false

/-- `calculateConfidence`: 0.5, +0.3 on a corpus match, +0.2 more when that
match is verified, +0.1 on a truthy live rating above 4, +0.1 on a truthy
live review count above 10, clamped at 1.  The JavaScript decimals are
exact in ℚ. -/
def calculateConfidence (live : LiveShop) (corpus : Option CorpusShop) : ℚ :=
  let score1 : ℚ := match corpus with
    | some c => 1/2 + 3/10 + (if c.verified then 1/5 else 0)
    | none => 1/2
  let score2 := score1 + (match live.rating with
    | some r => if r ≠ 0 ∧ r > 4 then (1/10 : ℚ) else 0
    | none => 0)
  let score3 := score2 + (match live.review_count with
    | some n => if n ≠ 0 ∧ n > 10 then (1/10 : ℚ) else 0
    | none => 0)
  min score3 1

/-- JavaScript `a || b` on nullable strings (`b` is returned as-is). -/
def jsOrS (a b : Option String) : Option String :=
  match truthyS a with
  | some x => some x
  | none => b

/-- JavaScript `a || b` on nullable rationals. -/
def jsOrQ (a b : Option ℚ) : Option ℚ :=
  match truthyQ a with
  | some x => some x
  | none => b

/-- JavaScript `a || b` on nullable naturals. -/
def jsOrN (a b : Option Nat) : Option Nat :=
  match truthyN a with
  | some x => some x
  | none => b

/-- JavaScript `a || b || []` on nullable lists: an array - empty or not -
is truthy, so a present `a` always wins. -/
def jsListOr (a b : Option (List String)) : List String :=
  match a with
  | some l => l
  | none => b.getD []

/-- The object built by the `enrich_with_corpus` branch of
`mergeWithStrategy`.  `last_updated` carries the `toISOString()` value. -/
structure EnrichedShop where
  id : String
  name : String
  address : Option String
  district : Option String
  rating : Option ℚ
  review_count : Nat
  prettiest_women : List String
  pricing : List String
  line_usernames : List String
  websites : List String
  verified : Bool
  safety_signals : List String
  last_verified : Option String
  district_info : Option String
  pricing_reference : List PricingRef
  data_sources : List String
  confidence : ℚ
  last_updated : String
deriving Repr, DecidableEq

/-- The `enrich_with_corpus` branch of `mergeWithStrategy`, field by field. -/
def mergeEnrich (live : LiveShop) (corpus : Option CorpusShop)
    (district : Option DistrictProfile) (pricing : List PricingRef)
    (nowIso : String) : EnrichedShop :=
  { id := ((truthyS live.id).orElse
      (fun _ => truthyS (corpus.bind CorpusShop.id))).getD (generateId live.name),
    name := live.name,
    address := jsOrS live.address (corpus.bind CorpusShop.address),
    district := match extractDistrict live.address with
      | some d => some d
      | none => corpus.bind CorpusShop.district,
    rating := jsOrQ live.rating (corpus.bind CorpusShop.rating),
    review_count := (jsOrN live.review_count (corpus.bind CorpusShop.review_count)).getD 0,
    prettiest_women := jsListOr live.prettiest_women_mentions
      (corpus.bind CorpusShop.prettiest_women),
    pricing := jsListOr live.pricing (corpus.bind CorpusShop.pricing),
    line_usernames := jsListOr live.line_usernames (corpus.bind CorpusShop.line_usernames),
    websites := jsListOr live.websites (corpus.bind CorpusShop.websites),
    verified := match corpus with
      | some c => c.verified
      | none => false,
    safety_signals := (corpus.bind CorpusShop.safety_signals).getD [],
    last_verified := corpus.bind CorpusShop.last_verified,
    district_info := match district with
      | some d => truthyS d.profile
      | none => none,
    pricing_reference := pricing,
    data_sources := "google_maps" :: (if corpus.isSome then ["corpus"] else []),
    confidence := calculateConfidence live corpus,
    last_updated := nowIso }

/-- The object built by the `corpus_priority` branch: the corpus record
spread, with rating/review-count fallbacks and concatenated lists. -/
structure CorpusMergedShop where
  id : Option String
  name : String
  address : Option String
  district : Option String
  rating : Option ℚ
  review_count : Option Nat
  prettiest_women : List String
  pricing : List String
  line_usernames : Option (List String)
  websites : Option (List String)
  verified : Bool
  safety_signals : Option (List String)
  last_verified : Option String
  data_sources : List String
deriving Repr, DecidableEq

/-- The `corpus_priority` branch of `mergeWithStrategy` for a present corpus
record. -/
def mergeCorpusPriority (live : LiveShop) (c : CorpusShop) : CorpusMergedShop :=
  { id := c.id,
    name := c.name,
    address := c.address,
    district := c.district,
    rating := jsOrQ c.rating live.rating,
    review_count := jsOrN c.review_count live.review_count,
    prettiest_women := c.prettiest_women.getD [] ++ live.prettiest_women_mentions.getD [],
    pricing := c.pricing.getD [] ++ live.pricing.getD [],
    line_usernames := c.line_usernames,
    websites := c.websites,
    verified := c.verified,
    safety_signals := c.safety_signals,
    last_verified := c.last_verified,
    data_sources := ["corpus", "google_maps"] }

/-- The three result shapes `mergeWithStrategy` can return (JavaScript is
structurally typed; the default branch returns the live object unchanged). -/
inductive MergeOutput where
  | enriched (e : EnrichedShop)
  | corpusMerged (c : CorpusMergedShop)
  | passthrough (l : LiveShop)
deriving Repr, DecidableEq

/-- `mergeWithStrategy`.  Under `corpus_priority` with a null corpus match
the JavaScript `corpus.rating` member access throws a TypeError, modelled
as `Except.error`. -/
def mergeWithStrategy (live : LiveShop) (corpus : Option CorpusShop)
    (district : Option DistrictProfile) (pricing : List PricingRef)
    (strategy : String) (nowIso : String) : Except String MergeOutput :=
  if strategy = "enrich_with_corpus" then
    .ok (.enriched (mergeEnrich live corpus district pricing nowIso))
  else if strategy = "corpus_priority" then
    match corpus with
    | none => .error "TypeError: cannot read rating of null"
    | some c => .ok (.corpusMerged (mergeCorpusPriority live c))
  else
    .ok (.passthrough live)

/-! ## Spec-side definitions and concrete example inputs -/

/-- The confidence formula exactly as the spec states it: `min(0.5 +
0.3·[match] + 0.2·[match verified] + 0.1·[live rating > 4.0] +
0.1·[live review count > 10], 1.0)` (a missing rating/review count scores
as 0, hence never above the threshold). -/
def confidenceSpec (live : LiveShop) (corpus : Option CorpusShop) : ℚ :=
  let matchInd : ℚ := if corpus.isSome then 1 else 0
  let verifiedInd : ℚ := if (corpus.map CorpusShop.verified).getD false then 1 else 0
  let ratingInd : ℚ := if live.rating.getD 0 > 4 then 1 else 0
  let reviewInd : ℚ := if live.review_count.getD 0 > 10 then 1 else 0
  min (1/2 + 3/10 * matchInd + 1/5 * verifiedInd + 1/10 * ratingInd
    + 1/10 * reviewInd) 1

/-- Extracted content with body "A". -/
def ecA : ExtractedContent :=
  { title := "T", headings := [], body := "A", lists := [], tables := [] }

/-- Extracted content with body "B" (same title, different body). -/
def ecB : ExtractedContent :=
  { title := "T", headings := [], body := "B", lists := [], tables := [] }

/-- A render request for domain `d`, source URL `s://d/p` (hence path `p`),
hash `h`, extracting `ecA`. -/
def reqA : RenderRequest :=
  { domain := "d", source_url := "s://d/p", content_hash := "h",
    extracted_content := some ecA }

/-- The same request with body "B" but the same claimed content hash. -/
def reqB : RenderRequest :=
  { domain := "d", source_url := "s://d/p", content_hash := "h",
    extracted_content := some ecB }

/-- The store after rendering `reqA` once into the empty store (domain
unverified). -/
def dbAfterA : DB := (renderMarkdownRoute initDB [] reqA 1 "t1").2

/-- A store holding a single inactive version with hash `other`. -/
def dbC2ex : DB :=
  { rows := [{ id := 0, domain := "d", path := "p", sourceUrl := none,
               content := "c", contentHash := "other", isActive := false,
               generatedAt := 0, createdAt := 0, updatedAt := 0 }],
    nextId := 1 }

/-- A verified domain row for `d`. -/
def vdEx : VerifiedDomain := { domain := "d", verifiedAt := some 5 }

/-- Content one byte over the 2 MB serving limit. -/
def bigContentEx : String := String.mk (List.replicate (2 * 1024 * 1024 + 1) 'x')

/-- An active stored version carrying `bigContentEx`. -/
def bigRowEx : Row :=
  { id := 0, domain := "d", path := "p", sourceUrl := none,
    content := bigContentEx, contentHash := "h", isActive := true,
    generatedAt := 0, createdAt := 0, updatedAt := 0 }

/-- A store holding only `bigRowEx`. -/
def dbBigEx : DB := { rows := [bigRowEx], nextId := 1 }

/-- A small active stored version. -/
def smallRowEx : Row :=
  { id := 0, domain := "d", path := "p", sourceUrl := none,
    content := "hello", contentHash := "h", isActive := true,
    generatedAt := 0, createdAt := 0, updatedAt := 0 }

/-- A store holding only `smallRowEx`. -/
def dbSmallEx : DB := { rows := [smallRowEx], nextId := 1 }

/-- A shop in district Asok. -/
def shopAsokEx : Shop :=
  { id := some "a1", name := "A", address := some "1 Asok", district := some "Asok",
    rating := some 4, review_count := some 5, prettiest_women := none,
    pricing := none, line_usernames := none, websites := none, verified := false,
    safety_signals := none, data_sources := none, last_updated := none }

/-- An empty cache with the fast tier configured. -/
def st0ex : CacheState :=
  { redisConfigured := true,
    redis := { shopsGlobal := none, shopsByDistrict := [], shopsByRating := none,
               lastUpdated := none },
    sqlite := [] }

/-- A live record whose `pricing` is a present but empty list. -/
def liveC7ex : LiveShop :=
  { id := none, name := "Relax Spa", address := none, rating := none,
    review_count := none, prettiest_women_mentions := none, pricing := some [],
    line_usernames := none, websites := none }

/-- The same live record without a `pricing` field. -/
def liveC7ex2 : LiveShop := { liveC7ex with pricing := none }

/-- A corpus match carrying a non-empty `pricing` list. -/
def corpusC7ex : CorpusShop :=
  { id := none, name := "Relax Spa", address := none, district := none,
    rating := none, review_count := none, prettiest_women := none,
    pricing := some ["thai 300"], line_usernames := none, websites := none,
    verified := false, safety_signals := none, last_verified := none }

/-- The spec example live record: rating 4.8, 120 reviews. -/
def liveC8ex : LiveShop :=
  { id := none, name := "X", address := none, rating := some (24/5),
    review_count := some 120, prettiest_women_mentions := none, pricing := none,
    line_usernames := none, websites := none }

/-- A verified corpus match. -/
def corpusC8ex : CorpusShop := { corpusC7ex with verified := true }

/-- A live record whose name normalizes to the empty string. -/
def liveBangEx : LiveShop := { liveC8ex with name := "!!!" }

/-- A corpus record named "Relax Spa". -/
def shopRelaxEx : CorpusShop := corpusC7ex

/-- A corpus record named "!!!" (exactly the live name). -/
def shopBangEx : CorpusShop := { corpusC7ex with name := "!!!" }

/-- `smallRowEx` after a deactivation at time 7. -/
def rowDeactEx : Row := { smallRowEx with isActive := false, updatedAt := 7 }

/-! ## Helper lemmas -/

/-- `find?` only looks at the predicate's value on members. -/
theorem find?_congr_mem {α : Type} {p q : α → Bool} :
    ∀ {l : List α}, (∀ a ∈ l, p a = q a) → l.find? p = l.find? q
  | [], _ => rfl
  | x :: xs, h => by
    have hx := h x (List.mem_cons_self x xs)
    simp only [List.find?]
    rw [hx]
    cases hqx : q x with
    | true => rfl
    | false => exact find?_congr_mem fun a ha => h a (List.mem_cons_of_mem x ha)

/-- Fuzzy-name matching succeeds whenever the second name normalizes to the
empty string, because the empty string is a substring of everything. -/
theorem isSimilarName_of_norm_empty (s live : String) (hs : s ≠ "") (hl : live ≠ "")
    (hnorm : normalizeName live = "") : isSimilarName s live = true := by
  unfold isSimilarName
  rw [if_neg (by push_neg; exact ⟨hs, hl⟩)]
  rw [hnorm]
  have h2 : includesStr (normalizeName s) (strTake "" 5) = true := by
    unfold includesStr strTake
    simp [List.nil_infix]
  simp [h2]

/-- Unfolded form of the serving handler on the too-large branch. -/
theorem serveMarkdown_tooLarge {vds : List VerifiedDomain} {db : DB} {d p : String}
    {v : VerifiedDomain} {row : Row} {rest : List Row}
    (h1 : vds.find? (fun x => x.domain == d) = some v)
    (h2 : v.verifiedAt.isSome = true)
    (h3 : db.rows.filter (fun r => keyMatch r d p && r.isActive) = row :: rest)
    (h4 : row.content.length > 2 * 1024 * 1024) :
    serveMarkdown vds db d p = .contentTooLarge := by
  unfold serveMarkdown
  rw [h1]
  dsimp only
  rw [if_neg (by simp [Option.isNone_iff_eq_none]; intro hn; rw [hn] at h2; simp at h2),
    h3]
  dsimp only
  rw [if_pos h4]

/-! ## Claim C2: activate on a missing triple is a pure not-found -/

/-- C2: when no stored version matches the (domain, path, contentHash)
triple (the parameters being actual, non-empty identifiers), the activate
operation reports not-found and returns the store unchanged. -/
theorem c2_theorem (db : DB) (d p h : String) (now : Nat)
    (hd : d ≠ "") (hp : p ≠ "") (hh : h ≠ "")
    (hnone : ∀ r ∈ db.rows, tripleMatch r d p h = false) :
    activateMarkdown db d p h now = (.notFound, db) := by
  unfold activateMarkdown
  rw [if_neg (by simp [hd, hp, hh])]
  have hfil : db.rows.filter (fun r => tripleMatch r d p h) = [] :=
    List.filter_eq_nil_iff.mpr (by intro a ha; simp [hnone a ha])
  rw [hfil]

/-- C2 witness: concrete run on a store holding one version with a
different hash. -/
theorem c2_witness : activateMarkdown dbC2ex "d" "p" "h" 9 = (.notFound, dbC2ex) :=
  c2_theorem dbC2ex "d" "p" "h" 9 (by decide) (by decide) (by decide) (by decide)

/-! ## Claim C3: repeat render is absorbed but never reported "duplicate" -/

/-- C3: rendering the identical request a second time keeps exactly one
stored row for the triple, yet the route answers plain ok - not the
"duplicate" response - because its existence check filters on the
`source_url` column, which the insert never populates. -/
theorem c3_theorem :
    (renderMarkdownRoute dbAfterA [] reqA 2 "t2").1 = .ok false ∧
    (renderMarkdownRoute dbAfterA [] reqA 2 "t2").1 ≠ .duplicate ∧
    ((renderMarkdownRoute dbAfterA [] reqA 2 "t2").2.rows.countP
      (fun r => tripleMatch r "d" "p" "h")) = 1 := by
  decide

/-! ## Claim C4: the serving read path -/

/-- C4 amended: serving (domain, path) yields not-found when no
`verified_domains` row exists; forbidden when the row exists with NULL
`verified_at` (whatever versions exist); not-found when the domain is
verified but no active version exists; and the first active version's
content when one exists - provided that content is at most 2 MB (a larger
active version yields the "Content too large" error outcome instead, see
the counterexample). -/
theorem c4_theorem :
    (∀ (vds : List VerifiedDomain) (db : DB) (d p : String),
        vds.find? (fun x => x.domain == d) = none →
        serveMarkdown vds db d p = .domainNotFound) ∧
    (∀ (vds : List VerifiedDomain) (db : DB) (d p : String) (v : VerifiedDomain),
        vds.find? (fun x => x.domain == d) = some v →
        v.verifiedAt = none →
        serveMarkdown vds db d p = .forbidden) ∧
    (∀ (vds : List VerifiedDomain) (db : DB) (d p : String) (v : VerifiedDomain),
        vds.find? (fun x => x.domain == d) = some v →
        v.verifiedAt.isSome = true →
        db.rows.filter (fun r => keyMatch r d p && r.isActive) = [] →
        serveMarkdown vds db d p = .markdownNotFound) ∧
    (∀ (vds : List VerifiedDomain) (db : DB) (d p : String) (v : VerifiedDomain)
        (row : Row) (rest : List Row),
        vds.find? (fun x => x.domain == d) = some v →
        v.verifiedAt.isSome = true →
        db.rows.filter (fun r => keyMatch r d p && r.isActive) = row :: rest →
        row.content.length ≤ 2 * 1024 * 1024 →
        serveMarkdown vds db d p = .served row.content) := by
  refine ⟨?_, ?_, ?_, ?_⟩
  · intro vds db d p h1
    unfold serveMarkdown
    rw [h1]
  · intro vds db d p v h1 h2
    unfold serveMarkdown
    rw [h1]
    dsimp only
    rw [if_pos (by simp [h2])]
  · intro vds db d p v h1 h2 h3
    unfold serveMarkdown
    rw [h1]
    dsimp only
    rw [if_neg (by simp [Option.isNone_iff_eq_none]; intro hn; rw [hn] at h2; simp at h2),
      h3]
  · intro vds db d p v row rest h1 h2 h3 h4
    unfold serveMarkdown
    rw [h1]
    dsimp only
    rw [if_neg (by simp [Option.isNone_iff_eq_none]; intro hn; rw [hn] at h2; simp at h2),
      h3]
    dsimp only
    rw [if_neg (by omega)]

/-- C4 witness: all four branches exercised on concrete stores. -/
theorem c4_witness :
    serveMarkdown [] initDB "d" "p" = .domainNotFound ∧
    serveMarkdown [{ domain := "d", verifiedAt := none }] dbSmallEx "d" "p" = .forbidden ∧
    serveMarkdown [vdEx] initDB "d" "p" = .markdownNotFound ∧
    serveMarkdown [vdEx] dbSmallEx "d" "p" = .served "hello" :=
  ⟨c4_theorem.1 [] initDB "d" "p" (by decide),
   c4_theorem.2.1 _ dbSmallEx "d" "p" { domain := "d", verifiedAt := none }
     (by decide) rfl,
   c4_theorem.2.2.1 _ initDB "d" "p" vdEx (by decide) (by decide) (by decide),
   c4_theorem.2.2.2 _ dbSmallEx "d" "p" vdEx smallRowEx [] (by decide) (by decide)
     (by decide) (by decide)⟩

/-- C4 counterexample: a verified domain with a single active version whose
content is one byte above 2 MB is answered with the "Content too large"
error, not with the content the claim promises. -/
theorem c4_counterexample :
    vdEx.verifiedAt.isSome = true ∧
    dbBigEx.rows.filter (fun r => keyMatch r "d" "p" && r.isActive) = [bigRowEx] ∧
    bigContentEx.length > 2 * 1024 * 1024 ∧
    serveMarkdown [vdEx] dbBigEx "d" "p" = .contentTooLarge := by
  have hlen : bigContentEx.length = 2 * 1024 * 1024 + 1 := by
    show (List.replicate (2 * 1024 * 1024 + 1) 'x').length = 2 * 1024 * 1024 + 1
    exact List.length_replicate _ _
  have hlen2 : bigRowEx.content.length = 2 * 1024 * 1024 + 1 := hlen
  have hfil : dbBigEx.rows.filter (fun r => keyMatch r "d" "p" && r.isActive)
      = [bigRowEx] := rfl
  exact ⟨rfl, hfil, by omega,
    serveMarkdown_tooLarge rfl rfl hfil (by omega)⟩

/-! ## Claim C6: resolve immediately after update -/

/-- C6 amended: with the fast tier configured, a district-less `getShops`
within the TTL window after `updateShops` returns exactly the updated
records, served from the fast tier (hence without touching the durable or
corpus tiers, whose state is returned unchanged).  A district-scoped
resolve does not enjoy this: `updateShops` writes only the global fast-tier
key (see the counterexample). -/
theorem c6_theorem (st : CacheState) (shops corpus : List Shop) (now t : Nat)
    (hconf : st.redisConfigured = true) (httl : t < now + 3600) :
    cacheGetShops (cacheUpdateShops st shops now) corpus none t
      = (shops, .fast, cacheUpdateShops st shops now) := by
  unfold cacheUpdateShops cacheGetShops redisSetShops redisGetShops
  simp [hconf, httl]

/-- C6 witness: concrete run through the amended theorem. -/
theorem c6_witness :
    cacheGetShops (cacheUpdateShops st0ex [shopAsokEx] 0) [] none 0
      = ([shopAsokEx], .fast, cacheUpdateShops st0ex [shopAsokEx] 0) :=
  c6_theorem st0ex [shopAsokEx] [] 0 0 rfl (by norm_num)

/-- C6 counterexample: the same update followed by a district-scoped
resolve is served from the durable tier, not the fast tier, because
`updateShops` never writes the per-district fast-tier key. -/
theorem c6_counterexample :
    (cacheGetShops (cacheUpdateShops st0ex [shopAsokEx] 0) [] (some "Asok") 0).2.1
      = .durable ∧
    ServedFrom.durable ≠ ServedFrom.fast := by
  decide

/-! ## Claim C7: list-valued fields under enrich_with_corpus -/

/-- C7 amended: under `enrich_with_corpus` each list-valued field
(`pricing`, `line_usernames`, `websites`) of the merged result equals the
live record's list whenever the live field is present - including when that
list is empty, because a JavaScript array is truthy - and falls back to the
matched reference's list (defaulting to `[]`) only when the live field is
absent. -/
theorem c7_theorem (live : LiveShop) (c : CorpusShop) (dp : Option DistrictProfile)
    (pr : List PricingRef) (t : String) :
    ((∀ l, live.pricing = some l → (mergeEnrich live (some c) dp pr t).pricing = l) ∧
      (live.pricing = none →
        (mergeEnrich live (some c) dp pr t).pricing = c.pricing.getD [])) ∧
    ((∀ l, live.line_usernames = some l →
        (mergeEnrich live (some c) dp pr t).line_usernames = l) ∧
      (live.line_usernames = none →
        (mergeEnrich live (some c) dp pr t).line_usernames = c.line_usernames.getD [])) ∧
    ((∀ l, live.websites = some l → (mergeEnrich live (some c) dp pr t).websites = l) ∧
      (live.websites = none →
        (mergeEnrich live (some c) dp pr t).websites = c.websites.getD [])) := by
  refine ⟨⟨?_, ?_⟩, ⟨?_, ?_⟩, ⟨?_, ?_⟩⟩
  · intro l hl; simp [mergeEnrich, jsListOr, hl]
  · intro hl; simp [mergeEnrich, jsListOr, hl]
  · intro l hl; simp [mergeEnrich, jsListOr, hl]
  · intro hl; simp [mergeEnrich, jsListOr, hl]
  · intro l hl; simp [mergeEnrich, jsListOr, hl]
  · intro hl; simp [mergeEnrich, jsListOr, hl]

/-- C7 witness: live pricing present-but-empty wins; absent pricing falls
back to the corpus list. -/
theorem c7_witness :
    (mergeEnrich liveC7ex (some corpusC7ex) none [] "t0").pricing = [] ∧
    (mergeEnrich liveC7ex2 (some corpusC7ex) none [] "t0").pricing = ["thai 300"] :=
  ⟨(c7_theorem liveC7ex corpusC7ex none [] "t0").1.1 [] rfl,
   (c7_theorem liveC7ex2 corpusC7ex none [] "t0").1.2 rfl⟩

/-- C7 counterexample: a live record with `pricing = []` matched to a
reference with a non-empty pricing list keeps the empty live list, where
the claim demands the reference's value. -/
theorem c7_counterexample :
    liveC7ex.pricing = some [] ∧
    corpusC7ex.pricing = some ["thai 300"] ∧
    (mergeEnrich liveC7ex (some corpusC7ex) none [] "t0").pricing = [] ∧
    ([] : List String) ≠ ["thai 300"] := by
  decide

/-! ## Claim C8: the confidence formula -/

/-- Truthiness of the live rating threshold: a rating above 4 is never 0. -/
theorem ratingCond_iff (r : ℚ) : (r ≠ 0 ∧ r > 4) ↔ r > 4 :=
  ⟨And.right, fun h => ⟨ne_of_gt (lt_trans (by norm_num) h), h⟩⟩

/-- Truthiness of the review-count threshold. -/
theorem reviewCond_iff (n : ℕ) : (n ≠ 0 ∧ n > 10) ↔ n > 10 := by omega

/-- C8: the computed confidence equals the spec's closed formula
`min(0.5 + 0.3·[match] + 0.2·[verified match] + 0.1·[rating > 4] +
0.1·[reviews > 10], 1.0)` for every input, and the spec's example - rating
4.8, 120 reviews, verified corpus match - scores exactly 1. -/
theorem c8_theorem :
    (∀ (live : LiveShop) (corpus : Option CorpusShop),
        calculateConfidence live corpus = confidenceSpec live corpus) ∧
    calculateConfidence liveC8ex (some corpusC8ex) = 1 := by
  constructor
  · intro live corpus
    unfold calculateConfidence confidenceSpec
    rcases corpus with _ | c <;>
      rcases hr : live.rating with _ | r <;>
      rcases hn : live.review_count with _ | n <;>
        simp only [hr, hn, Option.getD_some, Option.getD_none, Option.isSome_none,
          Option.isSome_some, Option.map_none', Option.map_some', ratingCond_iff,
          reviewCond_iff, mul_ite, mul_one, mul_zero, if_true, if_false, add_zero,
          Bool.false_eq_true,
          (by norm_num : ¬ (0 : ℚ) > 4), (by norm_num : ¬ (0 : ℕ) > 10)]
  · norm_num [calculateConfidence, liveC8ex, corpusC8ex, corpusC7ex, min_def]

/-! ## Claim C9: merging with no corpus match -/

/-- C9 amended: when no matching rule succeeds, the merge completes from
the live record alone under `enrich_with_corpus` (producing the
corpus-independent enrichment) and under any unknown strategy (returning
the live record unchanged) - but under `corpus_priority` the merge step
throws (the code dereferences the null match), surfaced as the route's
500 response. -/
theorem c9_theorem (live : LiveShop) (cs : List CorpusShop) (dp : Option DistrictProfile)
    (pr : List PricingRef) (strat t : String)
    (hnm : findMatchingShop live cs = none) :
    (strat = "enrich_with_corpus" →
      mergeWithStrategy live (findMatchingShop live cs) dp pr strat t
        = .ok (.enriched (mergeEnrich live none dp pr t))) ∧
    (strat ≠ "enrich_with_corpus" → strat ≠ "corpus_priority" →
      mergeWithStrategy live (findMatchingShop live cs) dp pr strat t
        = .ok (.passthrough live)) ∧
    (strat = "corpus_priority" →
      (mergeWithStrategy live (findMatchingShop live cs) dp pr strat t).isOk = false) := by
  rw [hnm]
  refine ⟨?_, ?_, ?_⟩
  · intro h; subst h; simp [mergeWithStrategy]
  · intro h1 h2; simp [mergeWithStrategy, h1, h2]
  · intro h; subst h; simp [mergeWithStrategy, Except.isOk, Except.toBool]

/-- C9 witness: empty corpus, corpus_priority strategy. -/
theorem c9_witness :
    (mergeWithStrategy liveC8ex (findMatchingShop liveC8ex []) none []
      "corpus_priority" "t0").isOk = false :=
  (c9_theorem liveC8ex [] none [] "corpus_priority" "t0" rfl).2.2 rfl

/-- C9 counterexample: with no match, `corpus_priority` does not complete
with a structured result - the merge step errors. -/
theorem c9_counterexample :
    findMatchingShop liveC8ex [] = none ∧
    (mergeWithStrategy liveC8ex none none [] "corpus_priority" "t0").isOk = false := by
  decide

/-! ## Claim C10: fuzzy matching of names that normalize to nothing -/

/-- C10 amended: if the live name is truthy but normalizes to the empty
string, the fuzzy rule matches every corpus record with a truthy name; so
whenever no corpus record exactly matches the live name
(case-insensitively), `findMatchingShop` returns the first corpus record
with a truthy name, regardless of any actual similarity.  (If some record
does exactly match, the exact rule runs first and wins - see the
counterexample.) -/
theorem c10_theorem (live : LiveShop) (cs : List CorpusShop) (s0 : CorpusShop)
    (hname : live.name ≠ "") (hnorm : normalizeName live.name = "")
    (hnoexact : ∀ s ∈ cs, ¬ jsToLower s.name = jsToLower live.name)
    (hfirst : cs.find? (fun s => s.name != "") = some s0) :
    (∀ s ∈ cs, s.name ≠ "" → isSimilarName s.name live.name = true) ∧
    findMatchingShop live cs = some s0 := by
  have part1 : ∀ s ∈ cs, s.name ≠ "" → isSimilarName s.name live.name = true :=
    fun s _ hs => isSimilarName_of_norm_empty s.name live.name hs hname hnorm
  refine ⟨part1, ?_⟩
  unfold findMatchingShop
  have hne : cs.isEmpty = false := by
    cases cs with
    | nil => simp at hfirst
    | cons a l => rfl
  rw [hne]
  have hexact : cs.find? (fun s =>
      s.name != "" && live.name != "" && (jsToLower s.name == jsToLower live.name))
      = none := by
    rw [List.find?_eq_none]
    intro s hs hp
    simp only [Bool.and_eq_true, beq_iff_eq] at hp
    exact hnoexact s hs hp.2
  have hfuzzy : cs.find? (fun s =>
      s.name != "" && live.name != "" && isSimilarName s.name live.name) = some s0 := by
    rw [find?_congr_mem (q := fun s => s.name != "")]
    · exact hfirst
    · intro s hs
      by_cases h : s.name = ""
      · simp [h]
      · simp [h, hname, part1 s hs h]
  simp only [Bool.false_eq_true, if_false, hexact, hfuzzy]

/-- C10 witness: live name "!!!" against a single corpus record named
"Relax Spa": the fuzzy rule matches it and it is returned. -/
theorem c10_witness :
    (∀ s ∈ [shopRelaxEx], s.name ≠ "" →
      isSimilarName s.name liveBangEx.name = true) ∧
    findMatchingShop liveBangEx [shopRelaxEx] = some shopRelaxEx :=
  c10_theorem liveBangEx [shopRelaxEx] shopRelaxEx (by decide) (by decide)
    (by decide) (by decide)

/-- C10 counterexample: live name "!!!" against ["Relax Spa", "!!!"] - the
exact rule fires on the second record, so the first corpus record with a
name is not returned, contradicting the claim as stated. -/
theorem c10_counterexample :
    liveBangEx.name ≠ "" ∧
    normalizeName liveBangEx.name = "" ∧
    ([shopRelaxEx, shopBangEx].find? (fun s => s.name != "")) = some shopRelaxEx ∧
    findMatchingShop liveBangEx [shopRelaxEx, shopBangEx] = some shopBangEx ∧
    shopBangEx ≠ shopRelaxEx := by
  decide

/-! ## Claim C1: machinery for the single-active-version invariant -/

/-- Boolean characterization of `keyMatch`. -/
theorem keyMatch_iff {r : Row} {d p : String} :
    keyMatch r d p = true ↔ r.domain = d ∧ r.path = p := by
  simp [keyMatch, Bool.and_eq_true]

/-- Boolean characterization of `tripleMatch`. -/
theorem tripleMatch_iff {r : Row} {d p h : String} :
    tripleMatch r d p h = true ↔ r.domain = d ∧ r.path = p ∧ r.contentHash = h := by
  simp [tripleMatch, keyMatch, Bool.and_eq_true, and_assoc]

/-- A triple match implies a key match. -/
theorem keyMatch_of_tripleMatch {r : Row} {d p h : String}
    (ht : tripleMatch r d p h = true) : keyMatch r d p = true := by
  rcases tripleMatch_iff.mp ht with ⟨h1, h2, _⟩
  exact keyMatch_iff.mpr ⟨h1, h2⟩

/-- Every row key-matches its own key. -/
theorem keyMatch_self (r : Row) : keyMatch r r.domain r.path = true :=
  keyMatch_iff.mpr ⟨rfl, rfl⟩

/-- `keyMatch` only reads the domain and path fields. -/
theorem keyMatch_congr {a b : Row} (hd : a.domain = b.domain) (hp : a.path = b.path)
    (d p : String) : keyMatch a d p = keyMatch b d p := by
  simp [keyMatch, hd, hp]

/-- `tripleMatch` only reads the domain, path and hash fields. -/
theorem tripleMatch_congr {a b : Row} (hd : a.domain = b.domain) (hp : a.path = b.path)
    (hh : a.contentHash = b.contentHash) (d p h : String) :
    tripleMatch a d p h = tripleMatch b d p h := by
  simp [tripleMatch, keyMatch, hd, hp, hh]

/-- A guarded record update preserves the key fields. -/
theorem keysPreserved_ite (c : Row → Bool) (u : Row → Row)
    (hu : ∀ r, (u r).id = r.id ∧ (u r).domain = r.domain ∧ (u r).path = r.path ∧
      (u r).contentHash = r.contentHash) :
    KeysPreserved (fun r => if c r then u r else r) := by
  intro r
  by_cases h : c r = true <;> simp [h, hu r]

/-- Composition preserves key preservation. -/
theorem keysPreserved_comp {f g : Row → Row} (hf : KeysPreserved f)
    (hg : KeysPreserved g) : KeysPreserved (g ∘ f) := by
  intro r
  obtain ⟨h1, h2, h3, h4⟩ := hf r
  obtain ⟨g1, g2, g3, g4⟩ := hg (f r)
  exact ⟨g1.trans h1, g2.trans h2, g3.trans h3, g4.trans h4⟩

/-- Mapping a key-preserving function keeps triple uniqueness. -/
theorem uniqueTriples_map {rows : List Row} {f : Row → Row} (hf : KeysPreserved f)
    (h : UniqueTriples rows) : UniqueTriples (rows.map f) := by
  unfold UniqueTriples at h ⊢
  rw [List.pairwise_map]
  refine h.imp ?_
  intro a b hab hcon
  obtain ⟨_, ha2, ha3, ha4⟩ := hf a
  obtain ⟨_, hb2, hb3, hb4⟩ := hf b
  rw [ha2, hb2, ha3, hb3, ha4, hb4] at hcon
  exact hab hcon

/-- Mapping a key-preserving function keeps id uniqueness. -/
theorem uniqueIds_map {rows : List Row} {f : Row → Row} (hf : KeysPreserved f)
    (h : UniqueIds rows) : UniqueIds (rows.map f) := by
  unfold UniqueIds at h ⊢
  rw [List.pairwise_map]
  refine h.imp ?_
  intro a b hab hcon
  rw [(hf a).1, (hf b).1] at hcon
  exact hab hcon

/-- Mapping a key-preserving function keeps the id bound. -/
theorem idsBelow_map {rows : List Row} {f : Row → Row} {n : Nat} (hf : KeysPreserved f)
    (h : IdsBelow rows n) : IdsBelow (rows.map f) n := by
  intro r hr
  obtain ⟨r0, hr0, rfl⟩ := List.mem_map.mp hr
  rw [(hf r0).1]
  exact h r0 hr0

/-- A predicate that never holds on two related elements of a pairwise list
counts at most one. -/
theorem countP_le_one_of_pairwise {α : Type} {R : α → α → Prop} {p : α → Bool} :
    ∀ {l : List α}, l.Pairwise R →
      (∀ a b, R a b → p a = true → p b = true → False) → l.countP p ≤ 1
  | [], _, _ => by simp
  | x :: xs, hp, h => by
    rcases List.pairwise_cons.mp hp with ⟨hx, hxs⟩
    by_cases hpx : p x = true
    · have hz : xs.countP p = 0 :=
        List.countP_eq_zero.mpr fun a ha hpa => h x a (hx a ha) hpx hpa
      rw [List.countP_cons, hz, if_pos hpx]
    · rw [List.countP_cons, if_neg hpx]
      simpa using countP_le_one_of_pairwise hxs h

/-- At most one stored row matches a given triple. -/
theorem countP_triple_le_one {rows : List Row} {d p h : String}
    (hu : UniqueTriples rows) : rows.countP (fun r => tripleMatch r d p h) ≤ 1 := by
  refine countP_le_one_of_pairwise hu ?_
  intro a b hab hpa hpb
  rcases tripleMatch_iff.mp hpa with ⟨a1, a2, a3⟩
  rcases tripleMatch_iff.mp hpb with ⟨b1, b2, b3⟩
  exact hab ⟨a1.trans b1.symm, a2.trans b2.symm, a3.trans b3.symm⟩

/-- At most one stored row carries a given id. -/
theorem countP_id_le_one {rows : List Row} {vid : Nat}
    (hu : UniqueIds rows) : rows.countP (fun r => r.id == vid) ≤ 1 := by
  refine countP_le_one_of_pairwise hu ?_
  intro a b hab hpa hpb
  rw [beq_iff_eq] at hpa hpb
  exact hab (hpa.trans hpb.symm)

/-- Two members of a pairwise list that are unrelated in both directions
are the same element. -/
theorem pairwise_mem_eq {α : Type} {R : α → α → Prop} :
    ∀ {l : List α}, l.Pairwise R → ∀ {a b : α}, a ∈ l → b ∈ l →
      ¬ R a b → ¬ R b a → a = b
  | [], _, a, _, ha, _, _, _ => absurd ha (List.not_mem_nil a)
  | x :: xs, hp, a, b, ha, hb, hnab, hnba => by
    rcases List.pairwise_cons.mp hp with ⟨hx, hxs⟩
    rcases List.mem_cons.mp ha with rfl | ha2
    · rcases List.mem_cons.mp hb with rfl | hb2
      · rfl
      · exact absurd (hx b hb2) hnab
    · rcases List.mem_cons.mp hb with rfl | hb2
      · exact absurd (hx a ha2) hnba
      · exact pairwise_mem_eq hxs ha2 hb2 hnab hnba

/-- With unique ids, equal ids mean the same row. -/
theorem uniqueIds_mem_eq {rows : List Row} (hu : UniqueIds rows) {a b : Row}
    (ha : a ∈ rows) (hb : b ∈ rows) (hid : a.id = b.id) : a = b :=
  pairwise_mem_eq hu ha hb (fun hne => hne hid) (fun hne => hne hid.symm)

/-- Core lemma for the deactivate-all-then-activate-target transactions:
if the activation condition holds on at most one row, both conditions stay
inside the key (dK, pK), and every row of that key is either activated or
deactivated, then mapping the swap keeps every key at most once active. -/
theorem activeCount_map_swap (rows : List Row) (g : Row → Row)
    (aCond dCond : Row → Bool) (dK pK : String)
    (hdom : ∀ r, (g r).domain = r.domain)
    (hpath : ∀ r, (g r).path = r.path)
    (hact : ∀ r, (g r).isActive =
      (if aCond r then true else if dCond r then false else r.isActive))
    (hA : ∀ r ∈ rows, aCond r = true → keyMatch r dK pK = true)
    (hD : ∀ r, dCond r = true → keyMatch r dK pK = true)
    (hK : ∀ r ∈ rows, keyMatch r dK pK = true → aCond r = true ∨ dCond r = true)
    (hcount : rows.countP aCond ≤ 1)
    (hInv : ∀ d p, activeCount rows d p ≤ 1) :
    ∀ d p, activeCount (rows.map g) d p ≤ 1 := by
  intro d p
  unfold activeCount
  rw [List.countP_map]
  have hkg : ∀ r, keyMatch (g r) d p = keyMatch r d p :=
    fun r => keyMatch_congr (hdom r) (hpath r) d p
  by_cases hkey : d = dK ∧ p = pK
  · obtain ⟨rfl, rfl⟩ := hkey
    have hc : rows.countP ((fun r => keyMatch r d p && r.isActive) ∘ g)
        = rows.countP aCond := by
      refine List.countP_congr ?_
      intro r hr
      simp only [Function.comp_apply]
      rw [Bool.and_eq_true, hkg r, hact r]
      by_cases haC : aCond r = true
      · simp [haC, hA r hr haC]
      · rw [if_neg (by simp [haC])]
        by_cases hdC : dCond r = true
        · simp [haC, hdC]
        · rw [if_neg (by simp [hdC])]
          have hkr : keyMatch r d p = false := by
            cases hk : keyMatch r d p
            · rfl
            · rcases hK r hr hk with h1 | h1
              · exact absurd h1 haC
              · exact absurd h1 hdC
          simp [hkr, haC]
    rw [hc]
    exact hcount
  · have hc : rows.countP (fun r => keyMatch (g r) d p && (g r).isActive)
        = rows.countP (fun r => keyMatch r d p && r.isActive) := by
      refine List.countP_congr ?_
      intro r hr
      rw [Bool.and_eq_true, Bool.and_eq_true, hkg r]
      by_cases hk : keyMatch r d p = true
      · have hkK : keyMatch r dK pK = false := by
          cases hkk : keyMatch r dK pK
          · rfl
          · rcases keyMatch_iff.mp hk with ⟨e1, e2⟩
            rcases keyMatch_iff.mp hkk with ⟨f1, f2⟩
            exact absurd ⟨e1.symm.trans f1, e2.symm.trans f2⟩ hkey
        have haC : aCond r = false := by
          cases hac : aCond r
          · rfl
          · rw [hA r hr hac] at hkK; exact absurd hkK (by simp)
        have hdC : dCond r = false := by
          cases hdc : dCond r
          · rfl
          · rw [hD r hdc] at hkK; exact absurd hkK (by simp)
        rw [hact r, if_neg (by simp [haC]), if_neg (by simp [hdC])]
      · simp [hk]
    show rows.countP (fun r => keyMatch (g r) d p && (g r).isActive) ≤ 1
    rw [hc]
    exact hInv d p

/-- Activation behaviour of the deactivate-key-then-activate-triple pair
used by `activateMarkdown`. -/
theorem swapAct_isActive (d p h : String) (now : Nat) (r : Row) :
    ((fun x => if tripleMatch x d p h then { x with isActive := true, updatedAt := now }
        else x)
      ((fun x => if keyMatch x d p then { x with isActive := false, updatedAt := now }
        else x) r)).isActive
    = (if tripleMatch r d p h then true else if keyMatch r d p then false
        else r.isActive) := by
  by_cases ht : tripleMatch r d p h = true
  · have hk : keyMatch r d p = true := keyMatch_of_tripleMatch ht
    simp only []
    rw [if_pos hk,
      if_pos (show tripleMatch { r with isActive := false, updatedAt := now } d p h = true
        from ht),
      if_pos ht]
  · by_cases hk : keyMatch r d p = true
    · simp only []
      rw [if_pos hk,
        if_neg (show ¬ tripleMatch { r with isActive := false, updatedAt := now } d p h = true
          from ht),
        if_neg ht, if_pos hk]
    · simp only []
      rw [if_neg hk, if_neg ht, if_neg ht, if_neg hk]

/-- `Inv` is preserved by `deactivateMarkdown`. -/
theorem inv_deactivateMarkdown (db : DB) (d p h : String) (now : Nat)
    (hinv : Inv db) : Inv (deactivateMarkdown db d p h now).2 := by
  unfold deactivateMarkdown
  by_cases hguard : (d = "" ∨ p = "" ∨ h = "")
  · rw [if_pos hguard]; exact hinv
  · rw [if_neg hguard]
    cases hfil : db.rows.filter (fun r => tripleMatch r d p h) with
    | nil => exact hinv
    | cons target rest =>
      dsimp only
      by_cases htar : (!target.isActive) = true
      · rw [if_pos htar]; exact hinv
      · rw [if_neg htar]
        obtain ⟨⟨hT, hI, hB⟩, hA⟩ := hinv
        have hkp : KeysPreserved (fun r =>
            if tripleMatch r d p h then { r with isActive := false, updatedAt := now }
            else r) :=
          keysPreserved_ite _ _ (fun r => ⟨rfl, rfl, rfl, rfl⟩)
        refine ⟨⟨uniqueTriples_map hkp hT, uniqueIds_map hkp hI, idsBelow_map hkp hB⟩, ?_⟩
        intro d1 p1
        unfold activeCount
        rw [List.countP_map]
        refine le_trans (List.countP_mono_left ?_) (hA d1 p1)
        intro r hr hpr
        simp only [Function.comp_apply] at hpr
        by_cases hc : tripleMatch r d p h = true
        · simp [hc] at hpr
        · simpa [hc] using hpr

/-- `Inv` is preserved by `activateMarkdown`. -/
theorem inv_activateMarkdown (db : DB) (d p h : String) (now : Nat)
    (hinv : Inv db) : Inv (activateMarkdown db d p h now).2 := by
  unfold activateMarkdown
  by_cases hguard : (d = "" ∨ p = "" ∨ h = "")
  · rw [if_pos hguard]; exact hinv
  · rw [if_neg hguard]
    cases hfil : db.rows.filter (fun r => tripleMatch r d p h) with
    | nil => exact hinv
    | cons target rest =>
      dsimp only
      by_cases htar : target.isActive = true
      · rw [if_pos htar]; exact hinv
      · rw [if_neg htar]
        obtain ⟨⟨hT, hI, hB⟩, hA⟩ := hinv
        rw [List.map_map]
        have hkA : KeysPreserved (fun r =>
            if keyMatch r d p then { r with isActive := false, updatedAt := now }
            else r) :=
          keysPreserved_ite _ _ (fun r => ⟨rfl, rfl, rfl, rfl⟩)
        have hkB : KeysPreserved (fun r =>
            if tripleMatch r d p h then { r with isActive := true, updatedAt := now }
            else r) :=
          keysPreserved_ite _ _ (fun r => ⟨rfl, rfl, rfl, rfl⟩)
        have hkC : KeysPreserved ((fun r =>
            if tripleMatch r d p h then { r with isActive := true, updatedAt := now }
            else r) ∘ (fun r =>
            if keyMatch r d p then { r with isActive := false, updatedAt := now }
            else r)) :=
          keysPreserved_comp hkA hkB
        refine ⟨⟨uniqueTriples_map hkC hT, uniqueIds_map hkC hI, idsBelow_map hkC hB⟩, ?_⟩
        refine activeCount_map_swap db.rows _ (fun r => tripleMatch r d p h)
          (fun r => keyMatch r d p) d p (fun r => (hkC r).2.1) (fun r => (hkC r).2.2.1)
          ?_ ?_ ?_ ?_ (countP_triple_le_one hT) hA
        · intro r
          exact swapAct_isActive d p h now r
        · intro r _ ht
          exact keyMatch_of_tripleMatch ht
        · intro r hk
          exact hk
        · intro r _ hk
          exact Or.inr hk

/-- Activation behaviour of the by-id swap used by `activateMarkdownById`. -/
theorem swapActById_isActive (dK pK : String) (vid now : Nat) (r : Row) :
    ((fun x => if x.id == vid then { x with isActive := true, updatedAt := now } else x)
      ((fun x => if keyMatch x dK pK then { x with isActive := false, updatedAt := now }
        else x) r)).isActive
    = (if (r.id == vid) = true then true else if keyMatch r dK pK then false
        else r.isActive) := by
  by_cases hid : (r.id == vid) = true
  · by_cases hk : keyMatch r dK pK = true
    · simp only []
      rw [if_pos hk,
        if_pos (show (Row.id { r with isActive := false, updatedAt := now } == vid) = true
          from hid),
        if_pos hid]
    · simp only []
      rw [if_neg hk, if_pos hid, if_pos hid]
  · by_cases hk : keyMatch r dK pK = true
    · simp only []
      rw [if_pos hk,
        if_neg (show ¬ (Row.id { r with isActive := false, updatedAt := now } == vid) = true
          from hid),
        if_neg hid, if_pos hk]
    · simp only []
      rw [if_neg hk, if_neg hid, if_neg hid, if_neg hk]

/-- `Inv` is preserved by `activateMarkdownById`. -/
theorem inv_activateMarkdownById (db : DB) (version_id : Option Nat) (now : Nat)
    (hinv : Inv db) : Inv (activateMarkdownById db version_id now).2 := by
  unfold activateMarkdownById
  cases version_id with
  | none => exact hinv
  | some vid =>
    dsimp only
    cases hfil : db.rows.filter (fun r => r.id == vid) with
    | nil => exact hinv
    | cons target rest =>
      dsimp only
      by_cases htar : target.isActive = true
      · rw [if_pos htar]; exact hinv
      · rw [if_neg htar]
        obtain ⟨⟨hT, hI, hB⟩, hA⟩ := hinv
        have htmem : target ∈ db.rows.filter (fun r => r.id == vid) := by
          rw [hfil]; exact List.mem_cons_self _ _
        have htarget_mem : target ∈ db.rows := (List.mem_filter.mp htmem).1
        have htarget_id : (target.id == vid) = true := (List.mem_filter.mp htmem).2
        rw [List.map_map]
        have hkA : KeysPreserved (fun r =>
            if keyMatch r target.domain target.path then
              { r with isActive := false, updatedAt := now }
            else r) :=
          keysPreserved_ite _ _ (fun r => ⟨rfl, rfl, rfl, rfl⟩)
        have hkB : KeysPreserved (fun r =>
            if r.id == vid then { r with isActive := true, updatedAt := now } else r) :=
          keysPreserved_ite _ _ (fun r => ⟨rfl, rfl, rfl, rfl⟩)
        have hkC := keysPreserved_comp hkA hkB
        refine ⟨⟨uniqueTriples_map hkC hT, uniqueIds_map hkC hI, idsBelow_map hkC hB⟩, ?_⟩
        refine activeCount_map_swap db.rows _ (fun r => r.id == vid)
          (fun r => keyMatch r target.domain target.path) target.domain target.path
          (fun r => (hkC r).2.1) (fun r => (hkC r).2.2.1) ?_ ?_ ?_ ?_
          (countP_id_le_one hI) hA
        · intro r
          exact swapActById_isActive target.domain target.path vid now r
        · intro r hr hid
          have hre : r = target := uniqueIds_mem_eq hI hr htarget_mem
            (by rw [beq_iff_eq] at hid htarget_id; rw [hid, htarget_id])
          rw [hre]
          exact keyMatch_self target
        · intro r hk
          exact hk
        · intro r _ hk
          exact Or.inr hk

/-- Activation behaviour of the auto-activation swap of `render.js` (the
deactivation there excludes the target id). -/
theorem autoAct_isActive (d p : String) (vid now : Nat) (r : Row) :
    ((fun x => if x.id == vid then { x with isActive := true, updatedAt := now } else x)
      ((fun x => if keyMatch x d p && !(x.id == vid) then
          { x with isActive := false, updatedAt := now }
        else x) r)).isActive
    = (if (r.id == vid) = true then true
        else if (keyMatch r d p && !(r.id == vid)) = true then false
        else r.isActive) := by
  by_cases hid : (r.id == vid) = true
  · have h1 : ¬ ((keyMatch r d p && !(r.id == vid)) = true) := by
      rw [hid, Bool.not_true, Bool.and_false]
      exact Bool.false_ne_true
    simp only []
    rw [if_neg h1, if_pos hid, if_pos hid]
  · have hidf : (r.id == vid) = false := Bool.eq_false_iff.mpr hid
    by_cases hk : keyMatch r d p = true
    · have hcond : (keyMatch r d p && !(r.id == vid)) = true := by
        rw [hk, hidf, Bool.not_false, Bool.true_and]
      simp only []
      rw [if_pos hcond,
        if_neg (show ¬ (Row.id { r with isActive := false, updatedAt := now } == vid) = true
          from hid),
        if_neg hid, if_pos hcond]
    · have h1 : ¬ ((keyMatch r d p && !(r.id == vid)) = true) := by
        rw [Bool.eq_false_iff.mpr hk, Bool.false_and]
        exact Bool.false_ne_true
      simp only []
      rw [if_neg h1, if_neg hid, if_neg hid, if_neg h1]

/-- `Inv` is preserved by the auto-activation transaction, provided any row
carrying the target id lies in the activated (domain, path) key. -/
theorem inv_autoActivate (db : DB) (d p : String) (vid now : Nat)
    (hinv : Inv db)
    (hid : ∀ r ∈ db.rows, (r.id == vid) = true → keyMatch r d p = true) :
    Inv (autoActivate db d p vid now) := by
  obtain ⟨⟨hT, hI, hB⟩, hA⟩ := hinv
  unfold autoActivate
  rw [List.map_map]
  have hkA : KeysPreserved (fun r =>
      if keyMatch r d p && !(r.id == vid) then
        { r with isActive := false, updatedAt := now }
      else r) :=
    keysPreserved_ite _ _ (fun r => ⟨rfl, rfl, rfl, rfl⟩)
  have hkB : KeysPreserved (fun r =>
      if r.id == vid then { r with isActive := true, updatedAt := now } else r) :=
    keysPreserved_ite _ _ (fun r => ⟨rfl, rfl, rfl, rfl⟩)
  have hkC := keysPreserved_comp hkA hkB
  refine ⟨⟨uniqueTriples_map hkC hT, uniqueIds_map hkC hI, idsBelow_map hkC hB⟩, ?_⟩
  refine activeCount_map_swap db.rows _ (fun r => r.id == vid)
    (fun r => keyMatch r d p && !(r.id == vid)) d p
    (fun r => (hkC r).2.1) (fun r => (hkC r).2.2.1) ?_ hid ?_ ?_
    (countP_id_le_one hI) hA
  · intro r
    exact autoAct_isActive d p vid now r
  · intro r hc
    exact (Bool.and_eq_true_iff.mp hc).1
  · intro r _ hk
    by_cases hid2 : (r.id == vid) = true
    · exact Or.inl hid2
    · refine Or.inr (Bool.and_eq_true_iff.mpr ⟨hk, ?_⟩)
      rw [Bool.eq_false_iff.mpr hid2, Bool.not_false]

/-- The idempotent insert preserves `Inv`, and the returned id identifies a
row of the inserted (domain, path) key. -/
theorem renderInsert_facts (db : DB) (d p h content : String) (now : Nat)
    (hinv : Inv db) :
    Inv (renderInsert db d p h content now).1 ∧
    (∀ r ∈ (renderInsert db d p h content now).1.rows,
      (r.id == (renderInsert db d p h content now).2) = true →
        keyMatch r d p = true) := by
  obtain ⟨⟨hT, hI, hB⟩, hA⟩ := hinv
  unfold renderInsert
  by_cases hconf : db.rows.any (fun r => tripleMatch r d p h) = true
  · rw [if_pos hconf]
    dsimp only
    have hkp : KeysPreserved (fun r =>
        if tripleMatch r d p h then { r with content := content, updatedAt := now }
        else r) :=
      keysPreserved_ite _ _ (fun r => ⟨rfl, rfl, rfl, rfl⟩)
    obtain ⟨r0, hfind⟩ : ∃ r0, db.rows.find? (fun r => tripleMatch r d p h) = some r0 := by
      have h1 : (db.rows.find? (fun r => tripleMatch r d p h)).isSome := by
        rw [List.find?_isSome]
        exact List.any_eq_true.mp hconf
      exact Option.isSome_iff_exists.mp h1
    have hmem0 : r0 ∈ db.rows := List.mem_of_find?_eq_some hfind
    have ht0a := List.find?_some hfind
    have ht0 : tripleMatch r0 d p h = true := ht0a
    constructor
    · refine ⟨⟨uniqueTriples_map hkp hT, uniqueIds_map hkp hI, idsBelow_map hkp hB⟩, ?_⟩
      intro d1 p1
      unfold activeCount
      rw [List.countP_map]
      have hc : db.rows.countP
          ((fun r => keyMatch r d1 p1 && r.isActive) ∘ (fun r =>
            if tripleMatch r d p h then { r with content := content, updatedAt := now }
            else r))
          = db.rows.countP (fun r => keyMatch r d1 p1 && r.isActive) := by
        refine List.countP_congr ?_
        intro r hr
        simp only [Function.comp_apply]
        by_cases hc1 : tripleMatch r d p h = true
        · rw [if_pos hc1]
          exact Iff.rfl
        · rw [if_neg hc1]
      show db.rows.countP ((fun r => keyMatch r d1 p1 && r.isActive) ∘ _) ≤ 1
      rw [hc]
      exact hA d1 p1
    · intro r hr hid
      rw [hfind] at hid
      simp only [Option.map_some', Option.getD_some] at hid
      obtain ⟨r1, hr1, rfl⟩ := List.mem_map.mp hr
      rw [beq_iff_eq, (hkp r1).1] at hid
      have hre : r1 = r0 := uniqueIds_mem_eq hI hr1 hmem0 hid
      rw [keyMatch_congr (hkp r1).2.1 (hkp r1).2.2.1 d p, hre]
      exact keyMatch_of_tripleMatch ht0
  · rw [if_neg hconf]
    dsimp only
    have hall : ∀ r ∈ db.rows, tripleMatch r d p h = false := by
      intro r hr
      cases hc : tripleMatch r d p h with
      | false => rfl
      | true => exact absurd (List.any_eq_true.mpr ⟨r, hr, hc⟩) hconf
    constructor
    · refine ⟨⟨?_, ?_, ?_⟩, ?_⟩
      · rw [UniqueTriples, List.pairwise_append]
        refine ⟨hT, List.pairwise_singleton _ _, ?_⟩
        intro a ha b hb
        rw [List.mem_singleton.mp hb]
        intro hcon
        have ht : tripleMatch a d p h = true :=
          tripleMatch_iff.mpr ⟨hcon.1, hcon.2.1, hcon.2.2⟩
        rw [hall a ha] at ht
        exact Bool.false_ne_true ht
      · rw [UniqueIds, List.pairwise_append]
        refine ⟨hI, List.pairwise_singleton _ _, ?_⟩
        intro a ha b hb
        rw [List.mem_singleton.mp hb]
        exact Nat.ne_of_lt (hB a ha)
      · intro r hr
        rcases List.mem_append.mp hr with hold | hnew
        · exact Nat.lt_trans (hB r hold) (Nat.lt_succ_self _)
        · rw [List.mem_singleton.mp hnew]
          exact Nat.lt_succ_self _
      · intro d1 p1
        unfold activeCount
        rw [List.countP_append]
        have hz : List.countP (fun r => keyMatch r d1 p1 && r.isActive)
            [{ id := db.nextId, domain := d, path := p, sourceUrl := none,
               content := content, contentHash := h, isActive := false,
               generatedAt := now, createdAt := now, updatedAt := now }] = 0 := by
          simp [keyMatch]
        rw [hz, Nat.add_zero]
        exact hA d1 p1
    · intro r hr hid
      rw [beq_iff_eq] at hid
      rcases List.mem_append.mp hr with hold | hnew
      · exact absurd hid (Nat.ne_of_lt (hB r hold))
      · rw [List.mem_singleton.mp hnew]
        exact keyMatch_iff.mpr ⟨rfl, rfl⟩

/-- `Inv` is preserved by the render route. -/
theorem inv_renderMarkdownRoute (db : DB) (vds : List VerifiedDomain)
    (req : RenderRequest) (now : Nat) (nowIso : String) (hinv : Inv db) :
    Inv (renderMarkdownRoute db vds req now nowIso).2 := by
  unfold renderMarkdownRoute
  cases hec : req.extracted_content with
  | none => exact hinv
  | some ec =>
    dsimp only
    by_cases hguard : (req.domain = "" ∨ req.source_url = "" ∨ req.content_hash = "")
    · rw [if_pos hguard]; exact hinv
    · rw [if_neg hguard]
      by_cases hdup : db.rows.any (fun r =>
          r.domain == req.domain && r.sourceUrl == some req.source_url &&
          r.contentHash == req.content_hash) = true
      · rw [if_pos hdup]; exact hinv
      · rw [if_neg hdup]
        obtain ⟨hinv1, hids⟩ := renderInsert_facts db req.domain
          (derivePath req.source_url) req.content_hash
          (renderMarkdown ec req.source_url req.content_hash nowIso) now
          ⟨⟨hinv.1.1, hinv.1.2.1, hinv.1.2.2⟩, hinv.2⟩
        by_cases hver : vds.any (fun v => v.domain == req.domain && v.verifiedAt.isSome)
            = true
        · rw [if_pos hver]
          exact inv_autoActivate _ _ _ _ _ hinv1 hids
        · rw [if_neg hver]
          exact hinv1

/-- Every operation preserves the combined invariant. -/
theorem inv_applyOp (vds : List VerifiedDomain) (db : DB) (op : Op) (hinv : Inv db) :
    Inv (applyOp vds db op) := by
  cases op with
  | render req now nowIso => exact inv_renderMarkdownRoute db vds req now nowIso hinv
  | activate d p h now => exact inv_activateMarkdown db d p h now hinv
  | activateById v now => exact inv_activateMarkdownById db v now hinv
  | deactivate d p h now => exact inv_deactivateMarkdown db d p h now hinv

/-- The invariant is inductive along any operation sequence. -/
theorem inv_foldl (vds : List VerifiedDomain) (ops : List Op) :
    ∀ db, Inv db → Inv (ops.foldl (applyOp vds) db) := by
  induction ops with
  | nil => intro db h; exact h
  | cons op rest ih => intro db h; exact ih _ (inv_applyOp vds db op h)

/-- The empty store satisfies the invariant. -/
theorem inv_initDB : Inv initDB :=
  ⟨⟨List.Pairwise.nil, List.Pairwise.nil, fun r hr => absurd hr (List.not_mem_nil r)⟩,
   fun d p => by simp [activeCount, initDB]⟩

/-- C1: starting from the empty store, after any sequence of render,
activate, activate-by-id and deactivate operations executed sequentially
(with arbitrary arguments, clocks and verified-domains table), every
(domain, path) key has at most one stored version with `isActive = true`. -/
theorem c1_theorem (vds : List VerifiedDomain) (ops : List Op) (d p : String) :
    activeCount (runOps vds ops).rows d p ≤ 1 :=
  (inv_foldl vds ops initDB inv_initDB).2 d p

/-! ## Claim C5: immutability of stored versions -/

/-- Reading an index through a map. -/
theorem getElem?_map_some {α β : Type} {f : α → β} {l : List α} {i : Nat} {r : α}
    {r' : β} (h1 : l[i]? = some r) (h2 : (l.map f)[i]? = some r') : r' = f r := by
  rw [List.getElem?_map, h1, Option.map_some'] at h2
  exact (Option.some.inj h2).symm

/-- The guarded flag updates used by the activation/deactivation SQL keep
both the frame and the content of every row. -/
theorem frame_content_ite (c : Row → Bool) (b : Bool) (now : Nat) (r : Row) :
    frameOf ((fun x => if c x then { x with isActive := b, updatedAt := now } else x) r)
      = frameOf r ∧
    ((fun x => if c x then { x with isActive := b, updatedAt := now } else x) r).content
      = r.content := by
  by_cases h : c r = true <;> simp [h, frameOf]

/-- Reading an index through the two activation maps. -/
theorem frame_double_map {f g : Row → Row}
    (hf : ∀ r, frameOf (f r) = frameOf r ∧ (f r).content = r.content)
    (hg : ∀ r, frameOf (g r) = frameOf r ∧ (g r).content = r.content)
    {l : List Row} {i : Nat} {r r' : Row} (h1 : l[i]? = some r)
    (h2 : ((l.map f).map g)[i]? = some r') :
    frameOf r' = frameOf r ∧ r'.content = r.content := by
  rw [List.map_map] at h2
  have he := getElem?_map_some h1 h2
  subst he
  exact ⟨((hg (f r)).1).trans (hf r).1, ((hg (f r)).2).trans (hf r).2⟩

/-- Rowwise effect of the idempotent insert on rows already present: frame
preserved, and content touched only on the conflicting triple. -/
theorem renderInsert_frame (db : DB) (d p h content : String) (now : Nat)
    {i : Nat} {r r' : Row} (h1 : db.rows[i]? = some r)
    (h2 : (renderInsert db d p h content now).1.rows[i]? = some r') :
    frameOf r' = frameOf r ∧ (r'.content ≠ r.content → tripleMatch r d p h = true) := by
  unfold renderInsert at h2
  by_cases hconf : db.rows.any (fun r => tripleMatch r d p h) = true
  · rw [if_pos hconf] at h2
    dsimp only at h2
    have he := getElem?_map_some h1 h2
    subst he
    constructor
    · by_cases hc : tripleMatch r d p h = true <;> simp [hc, frameOf]
    · intro hne
      by_cases hc : tripleMatch r d p h = true
      · exact hc
      · exact absurd (by simp [hc]) hne
  · rw [if_neg hconf] at h2
    dsimp only at h2
    have hlen : i < db.rows.length := (List.getElem?_eq_some_iff.mp h1).1
    rw [List.getElem?_append_left hlen, h1] at h2
    have he := Option.some.inj h2
    subst he
    exact ⟨rfl, fun hne => absurd rfl hne⟩

/-- Rowwise effect of the auto-activation transaction: frame and content
are both preserved. -/
theorem autoActivate_frame (db : DB) (d p : String) (vid now : Nat)
    {i : Nat} {r r' : Row} (h1 : db.rows[i]? = some r)
    (h2 : (autoActivate db d p vid now).rows[i]? = some r') :
    frameOf r' = frameOf r ∧ r'.content = r.content := by
  unfold autoActivate at h2
  exact frame_double_map
    (fun x => frame_content_ite (fun y => keyMatch y d p && !(y.id == vid)) false now x)
    (fun x => frame_content_ite (fun y => y.id == vid) true now x) h1 h2

/-- The idempotent insert never shortens the table. -/
theorem renderInsert_length (db : DB) (d p h content : String) (now : Nat) :
    db.rows.length ≤ (renderInsert db d p h content now).1.rows.length := by
  unfold renderInsert
  by_cases hconf : db.rows.any (fun r => tripleMatch r d p h) = true
  · rw [if_pos hconf]; simp
  · rw [if_neg hconf]; simp

/-- The auto-activation transaction keeps the table length. -/
theorem autoActivate_length (db : DB) (d p : String) (vid now : Nat) :
    (autoActivate db d p vid now).rows.length = db.rows.length := by
  unfold autoActivate
  simp

/-- C5 amended: no operation changes a stored version's id, domain, path,
content hash, source URL, generation time or creation time; the content
field is changed only by a render whose (domain, derived path, hash) triple
collides with the stored row - the `ON CONFLICT ... DO UPDATE` overwrite -
and `isActive`/`updatedAt` remain the only other mutable fields.  Rows are
never deleted. -/
theorem c5_theorem (vds : List VerifiedDomain) (op : Op) (db : DB) :
    db.rows.length ≤ (applyOp vds db op).rows.length ∧
    (∀ (i : Nat) (r r' : Row), db.rows[i]? = some r →
      (applyOp vds db op).rows[i]? = some r' →
      frameOf r' = frameOf r ∧
      (r'.content ≠ r.content → ∃ req now2 iso, op = Op.render req now2 iso ∧
        tripleMatch r req.domain (derivePath req.source_url) req.content_hash = true)) := by
  cases op with
  | activate d p h now =>
    have hshape : (activateMarkdown db d p h now).2.rows = db.rows ∨
        (activateMarkdown db d p h now).2.rows =
          (db.rows.map (fun x =>
            if keyMatch x d p then { x with isActive := false, updatedAt := now }
            else x)).map (fun x =>
            if tripleMatch x d p h then { x with isActive := true, updatedAt := now }
            else x) := by
      unfold activateMarkdown
      by_cases hguard : (d = "" ∨ p = "" ∨ h = "")
      · rw [if_pos hguard]; exact Or.inl rfl
      · rw [if_neg hguard]
        cases db.rows.filter (fun r => tripleMatch r d p h) with
        | nil => exact Or.inl rfl
        | cons target rest =>
          dsimp only
          by_cases htar : target.isActive = true
          · rw [if_pos htar]; exact Or.inl rfl
          · rw [if_neg htar]; exact Or.inr rfl
    dsimp only [applyOp]
    rcases hshape with hs | hs <;> rw [hs]
    · exact ⟨Nat.le_refl _, fun i r r' h1 h2 => by
        rw [h1] at h2
        have := Option.some.inj h2
        subst this
        exact ⟨rfl, fun hne => absurd rfl hne⟩⟩
    · refine ⟨by simp, fun i r r' h1 h2 => ?_⟩
      have hfc := frame_double_map
        (fun x => frame_content_ite (fun y => keyMatch y d p) false now x)
        (fun x => frame_content_ite (fun y => tripleMatch y d p h) true now x) h1 h2
      exact ⟨hfc.1, fun hne => absurd hfc.2 hne⟩
  | activateById v now =>
    have hshape : (activateMarkdownById db v now).2.rows = db.rows ∨
        ∃ dK pK vid, (activateMarkdownById db v now).2.rows =
          (db.rows.map (fun x =>
            if keyMatch x dK pK then { x with isActive := false, updatedAt := now }
            else x)).map (fun x =>
            if x.id == vid then { x with isActive := true, updatedAt := now }
            else x) := by
      unfold activateMarkdownById
      cases v with
      | none => exact Or.inl rfl
      | some vid =>
        dsimp only
        cases db.rows.filter (fun r => r.id == vid) with
        | nil => exact Or.inl rfl
        | cons target rest =>
          dsimp only
          by_cases htar : target.isActive = true
          · rw [if_pos htar]; exact Or.inl rfl
          · rw [if_neg htar]; exact Or.inr ⟨target.domain, target.path, vid, rfl⟩
    dsimp only [applyOp]
    rcases hshape with hs | ⟨dK, pK, vid, hs⟩ <;> rw [hs]
    · exact ⟨Nat.le_refl _, fun i r r' h1 h2 => by
        rw [h1] at h2
        have := Option.some.inj h2
        subst this
        exact ⟨rfl, fun hne => absurd rfl hne⟩⟩
    · refine ⟨by simp, fun i r r' h1 h2 => ?_⟩
      have hfc := frame_double_map
        (fun x => frame_content_ite (fun y => keyMatch y dK pK) false now x)
        (fun x => frame_content_ite (fun y => y.id == vid) true now x) h1 h2
      exact ⟨hfc.1, fun hne => absurd hfc.2 hne⟩
  | deactivate d p h now =>
    have hshape : (deactivateMarkdown db d p h now).2.rows = db.rows ∨
        (deactivateMarkdown db d p h now).2.rows =
          db.rows.map (fun x =>
            if tripleMatch x d p h then { x with isActive := false, updatedAt := now }
            else x) := by
      unfold deactivateMarkdown
      by_cases hguard : (d = "" ∨ p = "" ∨ h = "")
      · rw [if_pos hguard]; exact Or.inl rfl
      · rw [if_neg hguard]
        cases db.rows.filter (fun r => tripleMatch r d p h) with
        | nil => exact Or.inl rfl
        | cons target rest =>
          dsimp only
          by_cases htar : (!target.isActive) = true
          · rw [if_pos htar]; exact Or.inl rfl
          · rw [if_neg htar]; exact Or.inr rfl
    dsimp only [applyOp]
    rcases hshape with hs | hs <;> rw [hs]
    · exact ⟨Nat.le_refl _, fun i r r' h1 h2 => by
        rw [h1] at h2
        have := Option.some.inj h2
        subst this
        exact ⟨rfl, fun hne => absurd rfl hne⟩⟩
    · refine ⟨by simp, fun i r r' h1 h2 => ?_⟩
      have he := getElem?_map_some h1 h2
      subst he
      have hfc := frame_content_ite (fun y => tripleMatch y d p h) false now r
      exact ⟨hfc.1, fun hne => absurd hfc.2 hne⟩
  | render req now iso =>
    have hshape : (renderMarkdownRoute db vds req now iso).2.rows = db.rows ∨
        ∃ ec : ExtractedContent,
          (renderMarkdownRoute db vds req now iso).2.rows =
            (renderInsert db req.domain (derivePath req.source_url) req.content_hash
              (renderMarkdown ec req.source_url req.content_hash iso) now).1.rows ∨
          (renderMarkdownRoute db vds req now iso).2.rows =
            (autoActivate
              (renderInsert db req.domain (derivePath req.source_url) req.content_hash
                (renderMarkdown ec req.source_url req.content_hash iso) now).1
              req.domain (derivePath req.source_url)
              (renderInsert db req.domain (derivePath req.source_url) req.content_hash
                (renderMarkdown ec req.source_url req.content_hash iso) now).2
              now).rows := by
      unfold renderMarkdownRoute
      cases req.extracted_content with
      | none => exact Or.inl rfl
      | some ec =>
        dsimp only
        by_cases hguard : (req.domain = "" ∨ req.source_url = "" ∨ req.content_hash = "")
        · rw [if_pos hguard]; exact Or.inl rfl
        · rw [if_neg hguard]
          by_cases hdup : db.rows.any (fun r =>
              r.domain == req.domain && r.sourceUrl == some req.source_url &&
              r.contentHash == req.content_hash) = true
          · rw [if_pos hdup]; exact Or.inl rfl
          · rw [if_neg hdup]
            by_cases hver : vds.any (fun v =>
                v.domain == req.domain && v.verifiedAt.isSome) = true
            · rw [if_pos hver]; exact Or.inr ⟨ec, Or.inr rfl⟩
            · rw [if_neg hver]; exact Or.inr ⟨ec, Or.inl rfl⟩
    dsimp only [applyOp]
    rcases hshape with hs | ⟨ec, hs | hs⟩ <;> rw [hs]
    · exact ⟨Nat.le_refl _, fun i r r' h1 h2 => by
        rw [h1] at h2
        have := Option.some.inj h2
        subst this
        exact ⟨rfl, fun hne => absurd rfl hne⟩⟩
    · refine ⟨renderInsert_length db _ _ _ _ now, fun i r r' h1 h2 => ?_⟩
      have hfc := renderInsert_frame db req.domain (derivePath req.source_url)
        req.content_hash (renderMarkdown ec req.source_url req.content_hash iso) now h1 h2
      exact ⟨hfc.1, fun hne => ⟨req, now, iso, rfl, hfc.2 hne⟩⟩
    · constructor
      · rw [autoActivate_length]
        exact renderInsert_length db _ _ _ _ now
      · intro i r r' h1 h2
        have hlen1 : i < db.rows.length := (List.getElem?_eq_some_iff.mp h1).1
        have hlen2 : i < (renderInsert db req.domain (derivePath req.source_url)
            req.content_hash (renderMarkdown ec req.source_url req.content_hash iso)
            now).1.rows.length :=
          Nat.lt_of_lt_of_le hlen1 (renderInsert_length db _ _ _ _ now)
        cases hmid : (renderInsert db req.domain (derivePath req.source_url)
            req.content_hash (renderMarkdown ec req.source_url req.content_hash iso)
            now).1.rows[i]? with
        | none =>
          rw [List.getElem?_eq_none_iff] at hmid
          exact absurd hlen2 (Nat.not_lt.mpr hmid)
        | some rMid =>
          have hfa := autoActivate_frame _ req.domain (derivePath req.source_url) _ now
            hmid h2
          have hfi := renderInsert_frame db req.domain (derivePath req.source_url)
            req.content_hash (renderMarkdown ec req.source_url req.content_hash iso) now
            h1 hmid
          refine ⟨hfa.1.trans hfi.1, fun hne => ?_⟩
          have hne2 : rMid.content ≠ r.content := by
            intro he
            exact hne (hfa.2.trans he)
          exact ⟨req, now, iso, rfl, hfi.2 hne2⟩

/-- C5 witness: a concrete deactivation only flips the active flag - frame
and content of the stored row are untouched. -/
theorem c5_witness :
    frameOf rowDeactEx = frameOf smallRowEx ∧
    (rowDeactEx.content ≠ smallRowEx.content →
      ∃ req now2 iso, Op.deactivate "d" "p" "h" 7 = Op.render req now2 iso ∧
        tripleMatch smallRowEx req.domain (derivePath req.source_url)
          req.content_hash = true) :=
  (c5_theorem [] (Op.deactivate "d" "p" "h" 7) dbSmallEx).2 0 smallRowEx rowDeactEx
    (by decide) (by decide)

/-- C5 counterexample: a second render with the same (domain, source URL,
content hash) but different extracted content overwrites the stored row's
`content` (via `ON CONFLICT ... DO UPDATE SET content = EXCLUDED.content`),
so content is not immutable as the claim states - the store still holds a
single row, whose content after the second call differs from its content
after the first. -/
theorem c5_counterexample :
    (renderMarkdownRoute dbAfterA [] reqB 2 "t1").1 = .ok false ∧
    (renderMarkdownRoute dbAfterA [] reqB 2 "t1").2.rows.length = 1 ∧
    dbAfterA.rows.length = 1 ∧
    (renderMarkdownRoute dbAfterA [] reqB 2 "t1").2.rows.map Row.content
      ≠ dbAfterA.rows.map Row.content := by
  decide

end Croutons
